import Mathlib

/-!
Shallow embedding of the canopen-rs core (src/node.rs, src/frame.rs,
src/object_dictionary.rs, src/sdo.rs) and verification of its specified
properties.

Machine integers (u8, u16, u32) are embedded as `Nat`; the width bounds are
carried as hypotheses where a property depends on them.  Fallible Rust
operations (slicing that can panic, `Vec::from_slice(..).unwrap()`) are
embedded in the `Except Unit` monad so that a panic is observable as
`Except.error ()`, distinct from the pure "not an SDO frame" outcome
`Except.ok none`.
-/

namespace CanOpen

/-- Embedded CAN identifier (embedded_can::Id): standard 11-bit or
extended 29-bit. -/
inductive Id where
  | standard : Nat → Id
  | extended : Nat → Id
  deriving DecidableEq

/-- Embeds `NodeId(u8)` from src/node.rs. -/
structure NodeId where
  raw : Nat
  deriving DecidableEq

/-- Embeds `NodeId::new`: accepts only values in [0, 127]. -/
def NodeId.new (node_id : Nat) : Option NodeId :=
  if node_id ≤ 127 then some ⟨node_id⟩ else none

/-- Embeds `NodeId::new_unchecked`. -/
def NodeId.new_unchecked (node_id : Nat) : NodeId := ⟨node_id⟩

/-- Embeds `impl Default for NodeId` (value 126). -/
def NodeId.default : NodeId := ⟨126⟩

/-- Embeds `EntryId { index: u16, sub_index: u8 }` from
src/object_dictionary.rs. -/
structure EntryId where
  index : Nat
  sub_index : Nat
  deriving DecidableEq

/-- Width bounds imposed by the Rust field types u16 and u8. -/
def EntryId.WF (id : EntryId) : Prop := id.index < 65536 ∧ id.sub_index < 256

instance : DecidablePred EntryId.WF := fun id => by
  unfold EntryId.WF; infer_instance

/-- Strict lexicographic order on (index, sub_index): the order produced by
the derived `Ord` on the Rust struct. -/
def EntryId.lt (a b : EntryId) : Prop :=
  a.index < b.index ∨ (a.index = b.index ∧ a.sub_index < b.sub_index)

instance : DecidableRel EntryId.lt := fun a b => by
  unfold EntryId.lt; infer_instance

/-- Reflexive closure of `EntryId.lt`, the `≤` of the derived `Ord`. -/
def EntryId.le (a b : EntryId) : Prop := EntryId.lt a b ∨ a = b

instance : DecidableRel EntryId.le := fun a b => by
  unfold EntryId.le; infer_instance

/-- Three-way comparison on EntryId: first the index, then the sub-index,
as produced by the derived `Ord` on the Rust struct. -/
def EntryId.cmp (a b : EntryId) : Ordering :=
  match compare a.index b.index with
  | Ordering.eq => compare a.sub_index b.sub_index
  | o => o

/-- Modelled from the spec: `EntryId::to_le_bytes` is used by the SDO coder
but its body is not part of the sources under src/.  Spec §3/§6: wire form
is 3 bytes, index low byte, index high byte, sub-index byte. -/
def EntryId.to_le_bytes (id : EntryId) : List Nat :=
  [id.index % 256, id.index / 256 % 256, id.sub_index]

/-- Modelled from the spec: `EntryId::from_bytes` (inverse of
`EntryId.to_le_bytes`) is used by the SDO coder but its body is not part of
the sources under src/.  It reads a 3-byte slice: little-endian index, then
sub-index. -/
def EntryId.from_bytes (bytes : List Nat) : EntryId :=
  ⟨bytes.getD 0 0 + 256 * bytes.getD 1 0, bytes.getD 2 0⟩

/-- Embeds `EncodedCANOpenFrame` from src/frame.rs: a CAN identifier plus
up to 8 data bytes. -/
structure EncodedCANOpenFrame where
  id : Id
  data : List Nat
  deriving DecidableEq

/-- Embeds `Frame::is_extended` for `EncodedCANOpenFrame`. -/
def EncodedCANOpenFrame.is_extended (f : EncodedCANOpenFrame) : Bool :=
  match f.id with
  | Id.extended _ => true
  | _ => false

/-- Embeds `Frame::is_remote_frame` for `EncodedCANOpenFrame`: the type can
only represent data frames, so this is constantly false. -/
def EncodedCANOpenFrame.is_remote_frame (_ : EncodedCANOpenFrame) : Bool :=
  false

/-- Embeds `Frame::dlc` for `EncodedCANOpenFrame`. -/
def EncodedCANOpenFrame.dlc (f : EncodedCANOpenFrame) : Nat := f.data.length

/-- Embeds `EncodedCANOpenFrame::from_vec_data`. -/
def EncodedCANOpenFrame.from_vec_data (id : Id) (data : List Nat) :
    EncodedCANOpenFrame := ⟨id, data⟩

/-- Embeds `FrameId` from src/object_dictionary.rs (u16 standard or u32
extended identifier). -/
inductive FrameId where
  | Standard : Nat → FrameId
  | Extended : Nat → FrameId
  deriving DecidableEq

/-- Embeds `CobId { guts: u32 }` from src/object_dictionary.rs. -/
structure CobId where
  guts : Nat
  deriving DecidableEq

/-- Embeds `CobId::DISABLED_ID`. -/
def CobId.DISABLED_ID : Nat := 0x80000000

/-- Embeds `CobId::new`: packs the enabled flag into bit 31, the
rtr_allowed flag into bit 30, and the masked frame identifier into the low
bits. -/
def CobId.new (enabled rtr_allowed : Bool) (frame_id : FrameId) : CobId :=
  let raw_frame_id : Nat :=
    match frame_id with
    | FrameId.Standard id => id &&& 0x7FF
    | FrameId.Extended id => id &&& 0x1FFFFFFF
  ⟨(enabled.toNat <<< 31) + (rtr_allowed.toNat <<< 30) + raw_frame_id⟩

/-- Embeds `CobId::is_valid`: true iff bit 31 is clear. -/
def CobId.is_valid (c : CobId) : Bool := (c.guts >>> 31) &&& 0x1 == 0x0

/-- Embeds `CobId::rtr_allowed`: true iff bit 30 is clear. -/
def CobId.rtr_allowed (c : CobId) : Bool := (c.guts >>> 30) &&& 0x1 == 0x0

/-- Embeds `CobId::is_extended_id`: true iff bit 29 is set. -/
def CobId.is_extended_id (c : CobId) : Bool := (c.guts >>> 29) &&& 0x1 == 0x1

/-- Embeds `CobId::assigned_frame_id`. -/
def CobId.assigned_frame_id (c : CobId) : FrameId :=
  if c.is_extended_id then FrameId.Extended (c.guts &&& 0x1FFFFFFF)
  else FrameId.Standard (c.guts &&& 0x7FF)

/-- Embeds `impl Default for CobId`. -/
def CobId.default : CobId := ⟨CobId.DISABLED_ID⟩

/-- Embeds the `SdoAbortCode` enumeration from src/sdo.rs (all members, in
source order). -/
inductive SdoAbortCode where
  | ToggleBitNotAlternated
  | SDOProtocolTimedOut
  | CommandSpecifierError
  | InvalidBlockSize
  | InvalidSequenceNumber
  | CRCError
  | OutOfMemory
  | UnsupportedAccess
  | WriteOnlyError
  | ReadOnlyError
  | ObjectDoesNotExist
  | ObjectCannotBeMapped
  | PDOOverflow
  | ParameterIncompatibility
  | InternalIncompatibility
  | HardwareError
  | WrongLength
  | TooLong
  | TooShort
  | SubindexDoesNotExist
  | InvalidValue
  | ValueTooHigh
  | ValueTooLow
  | MaxLessThanMin
  | ResourceNotAvailable
  | GeneralError
  | TransferOrStorageError
  | LocalControlError
  | DeviceStateError
  | DictionaryError
  | NoDataAvailable
  deriving DecidableEq, Fintype

/-- The literal u32 discriminant of each `SdoAbortCode` member (the
`#[repr(u32)]` values, i.e. `*self as u32`). -/
def SdoAbortCode.toU32 : SdoAbortCode → Nat
  | .ToggleBitNotAlternated => 0x05030000
  | .SDOProtocolTimedOut => 0x05040000
  | .CommandSpecifierError => 0x05040001
  | .InvalidBlockSize => 0x05040002
  | .InvalidSequenceNumber => 0x05040003
  | .CRCError => 0x05040004
  | .OutOfMemory => 0x05040005
  | .UnsupportedAccess => 0x06010000
  | .WriteOnlyError => 0x06010001
  | .ReadOnlyError => 0x06010002
  | .ObjectDoesNotExist => 0x06020000
  | .ObjectCannotBeMapped => 0x06040041
  | .PDOOverflow => 0x06040042
  | .ParameterIncompatibility => 0x06040043
  | .InternalIncompatibility => 0x06040047
  | .HardwareError => 0x06060000
  | .WrongLength => 0x06070010
  | .TooLong => 0x06070012
  | .TooShort => 0x06070013
  | .SubindexDoesNotExist => 0x06090011
  | .InvalidValue => 0x06090030
  | .ValueTooHigh => 0x06090031
  | .ValueTooLow => 0x06090032
  | .MaxLessThanMin => 0x06090036
  | .ResourceNotAvailable => 0x060A0023
  | .GeneralError => 0x08000000
  | .TransferOrStorageError => 0x08000020
  | .LocalControlError => 0x08000021
  | .DeviceStateError => 0x08000022
  | .DictionaryError => 0x08000023
  | .NoDataAvailable => 0x08000024

/-- Embeds `FromPrimitive::from_u32` as derived for `SdoAbortCode`:
recognizes exactly the literal discriminants, anything else is `none`. -/
def SdoAbortCode.fromU32 (v : Nat) : Option SdoAbortCode :=
  if v = 0x05030000 then some .ToggleBitNotAlternated
  else if v = 0x05040000 then some .SDOProtocolTimedOut
  else if v = 0x05040001 then some .CommandSpecifierError
  else if v = 0x05040002 then some .InvalidBlockSize
  else if v = 0x05040003 then some .InvalidSequenceNumber
  else if v = 0x05040004 then some .CRCError
  else if v = 0x05040005 then some .OutOfMemory
  else if v = 0x06010000 then some .UnsupportedAccess
  else if v = 0x06010001 then some .WriteOnlyError
  else if v = 0x06010002 then some .ReadOnlyError
  else if v = 0x06020000 then some .ObjectDoesNotExist
  else if v = 0x06040041 then some .ObjectCannotBeMapped
  else if v = 0x06040042 then some .PDOOverflow
  else if v = 0x06040043 then some .ParameterIncompatibility
  else if v = 0x06040047 then some .InternalIncompatibility
  else if v = 0x06060000 then some .HardwareError
  else if v = 0x06070010 then some .WrongLength
  else if v = 0x06070012 then some .TooLong
  else if v = 0x06070013 then some .TooShort
  else if v = 0x06090011 then some .SubindexDoesNotExist
  else if v = 0x06090030 then some .InvalidValue
  else if v = 0x06090031 then some .ValueTooHigh
  else if v = 0x06090032 then some .ValueTooLow
  else if v = 0x06090036 then some .MaxLessThanMin
  else if v = 0x060A0023 then some .ResourceNotAvailable
  else if v = 0x08000000 then some .GeneralError
  else if v = 0x08000020 then some .TransferOrStorageError
  else if v = 0x08000021 then some .LocalControlError
  else if v = 0x08000022 then some .DeviceStateError
  else if v = 0x08000023 then some .DictionaryError
  else if v = 0x08000024 then some .NoDataAvailable
  else none

/-- Embeds `u32::to_le_bytes`: the 4 little-endian bytes of a u32 value. -/
def u32_to_le_bytes (v : Nat) : List Nat :=
  [v % 256, v / 256 % 256, v / 65536 % 256, v / 16777216 % 256]

/-- Embeds `u32::from_le_bytes` applied to a 4-byte slice. -/
def u32_from_le_bytes (bytes : List Nat) : Nat :=
  bytes.getD 0 0 + 256 * bytes.getD 1 0 + 65536 * bytes.getD 2 0 +
    16777216 * bytes.getD 3 0

/-- Embeds `SdoAbortCode::to_le_bytes`. -/
def SdoAbortCode.to_le_bytes (c : SdoAbortCode) : List Nat :=
  u32_to_le_bytes c.toU32

/-- Embeds `SdoAbortCode::from_le_bytes`: rejects any slice whose length is
not 4, otherwise decodes the u32 value. -/
def SdoAbortCode.from_le_bytes (bytes : List Nat) : Option SdoAbortCode :=
  if bytes.length ≠ 4 then none
  else SdoAbortCode.fromU32 (u32_from_le_bytes bytes)

/-- Embeds the `SdoFrame` enum from src/sdo.rs.  The heapless
`Vec<u8, 4>` / `Vec<u8, 7>` payloads are embedded as `List Nat`; their
capacity bounds are carried by `SdoFrame.WF`. -/
inductive SdoFrame where
  | UploadRequest (id : EntryId)
  | ExpeditedDownloadRequest (id : EntryId) (payload : List Nat)
  | DownloadInitiateResponse (id : EntryId)
  | ExpeditedUploadResponse (id : EntryId) (payload : List Nat)
  | SegmentedUploadInitiateResponse (id : EntryId) (size : Nat)
  | SegmentedUploadRequest (toggle : Bool)
  | SegmentedUploadResponse (toggle : Bool) (last : Bool) (payload : List Nat)
  | SegmentedDownloadInitiateRequest (id : EntryId) (size : Nat)
  | SegmentedDownloadRequest (toggle : Bool) (last : Bool) (payload : List Nat)
  | SegmentedDownloadResponse (toggle : Bool)
  | Abort (id : EntryId) (code : SdoAbortCode)
  deriving DecidableEq

/-- The invariants the Rust field types impose on an `SdoFrame` value:
EntryId fields fit u16/u8, payloads fit their `Vec` capacity and hold
bytes, sizes fit u32. -/
def SdoFrame.WF : SdoFrame → Prop
  | .UploadRequest id => id.WF
  | .ExpeditedDownloadRequest id p => id.WF ∧ p.length ≤ 4 ∧ ∀ b ∈ p, b < 256
  | .DownloadInitiateResponse id => id.WF
  | .ExpeditedUploadResponse id p => id.WF ∧ p.length ≤ 4 ∧ ∀ b ∈ p, b < 256
  | .SegmentedUploadInitiateResponse id size => id.WF ∧ size < 4294967296
  | .SegmentedUploadRequest _ => True
  | .SegmentedUploadResponse _ _ p => p.length ≤ 7 ∧ ∀ b ∈ p, b < 256
  | .SegmentedDownloadInitiateRequest id size => id.WF ∧ size < 4294967296
  | .SegmentedDownloadRequest _ _ p => p.length ≤ 7 ∧ ∀ b ∈ p, b < 256
  | .SegmentedDownloadResponse _ => True
  | .Abort id _ => id.WF

instance : DecidablePred SdoFrame.WF := fun f => by
  cases f <;> (unfold SdoFrame.WF; infer_instance)

/-- Embeds the `ClientCommand` enum from src/sdo.rs. -/
inductive ClientCommand where
  | ExpeditedDownload (length : Nat)
  | InitiateSegmentedDownload
  | DownloadSegmentRequest (toggle : Bool) (length : Nat) (last_seg : Bool)
  | InitiateUpload
  | UploadSegmentRequest (toggle : Bool)
  | Abort
  deriving DecidableEq

/-- Embeds `impl Into<u8> for ClientCommand`.  At every call site the
length fields are bounded (≤ 4 resp. ≤ 7) so the u8 arithmetic neither
overflows nor underflows; the expressions are kept literally. -/
def ClientCommand.intoU8 : ClientCommand → Nat
  | .ExpeditedDownload length => (1 <<< 5) + ((4 - length) <<< 2) + (1 <<< 1) + 1
  | .InitiateSegmentedDownload => (1 <<< 5) + (0 <<< 2) + (0 <<< 1) + 1
  | .DownloadSegmentRequest toggle length last_seg =>
      (0 <<< 5) + (toggle.toNat <<< 4) + ((7 - length) <<< 1) + last_seg.toNat
  | .InitiateUpload => 2 <<< 5
  | .UploadSegmentRequest toggle => (3 <<< 5) + (toggle.toNat <<< 4)
  | .Abort => 4 <<< 5

/-- Embeds `impl TryFrom<u8> for ClientCommand` (the error case
`InvalidCommandCode` becomes `none`). -/
def ClientCommand.tryFrom (value : Nat) : Option ClientCommand :=
  match value >>> 5 with
  | 0 => some (.DownloadSegmentRequest ((value >>> 4) &&& 0b1 == 0b1)
      (7 - ((value >>> 1) &&& 0b111)) (value &&& 0b1 == 0b1))
  | 1 =>
    if (value >>> 1) &&& 0b1 == 0b1 then
      some (.ExpeditedDownload (4 - ((value >>> 2) &&& 0b11)))
    else some .InitiateSegmentedDownload
  | 2 => some .InitiateUpload
  | 3 => some (.UploadSegmentRequest ((value >>> 4) &&& 0b1 == 0b1))
  | 4 => some .Abort
  | _ => none

/-- Embeds the `ServerCommand` enum from src/sdo.rs. -/
inductive ServerCommand where
  | InitiateDownloadResponse
  | DownloadSegmentResponse (toggle : Bool)
  | UploadInitiateExpeditedResponse (length : Nat)
  | UploadInitiateSegmentedResponse
  | UploadSegmentResponse (toggle : Bool) (length : Nat) (last : Bool)
  | Abort
  deriving DecidableEq

/-- Embeds `impl Into<u8> for ServerCommand`. -/
def ServerCommand.intoU8 : ServerCommand → Nat
  | .InitiateDownloadResponse => 3 <<< 5
  | .DownloadSegmentResponse toggle => (1 <<< 5) ||| (toggle.toNat <<< 4)
  | .UploadInitiateExpeditedResponse length =>
      (2 <<< 5) ||| ((4 - length) <<< 2) ||| (0b1 <<< 1) ||| 0b1
  | .UploadInitiateSegmentedResponse => (2 <<< 5) ||| 0b1
  | .UploadSegmentResponse toggle length last =>
      (0 <<< 5) ||| (toggle.toNat <<< 4) ||| ((7 - length) <<< 1) ||| last.toNat
  | .Abort => 4 <<< 5

/-- Embeds `impl TryFrom<u8> for ServerCommand`. -/
def ServerCommand.tryFrom (value : Nat) : Option ServerCommand :=
  match (value >>> 5) &&& 0b111 with
  | 0 => some (.UploadSegmentResponse ((value >>> 4) &&& 0b1 == 0b1)
      (7 - ((value >>> 1) &&& 0b111)) (value &&& 0b1 == 0b1))
  | 1 => some (.DownloadSegmentResponse ((value >>> 4) &&& 0b1 == 0b1))
  | 2 =>
    if (value >>> 1) &&& 0b1 == 0b1 then
      some (.UploadInitiateExpeditedResponse (4 - ((value >>> 2) &&& 0b11)))
    else some .UploadInitiateSegmentedResponse
  | 3 => some .InitiateDownloadResponse
  | 4 => some .Abort
  | _ => none

/-- Embeds `SDORole` from src/sdo.rs. -/
inductive SDORole where
  | Server
  | Client
  deriving DecidableEq

/-- Embeds `SDOCoder::RX_ID_OFFSET`. -/
def RX_ID_OFFSET : Nat := 0x600

/-- Embeds `SDOCoder::TX_ID_OFFSET`. -/
def TX_ID_OFFSET : Nat := 0x580

/-- Embeds the Rust range slice `data[lo..hi]`: panics (`.error ()`) when
the bounds do not fit the slice. -/
def sliceE (data : List Nat) (lo hi : Nat) : Except Unit (List Nat) :=
  if lo ≤ hi ∧ hi ≤ data.length then Except.ok ((data.drop lo).take (hi - lo))
  else Except.error ()

/-- Embeds `Vec::<u8, CAP>::from_slice(l).unwrap()`: panics (`.error ()`)
when the slice exceeds the capacity. -/
def vecFromSliceE (cap : Nat) (l : List Nat) : Except Unit (List Nat) :=
  if l.length ≤ cap then Except.ok l else Except.error ()

/-- Decidable equality for `Except` results, used to evaluate decoder
outputs on concrete inputs. -/
instance {e a : Type} [DecidableEq e] [DecidableEq a] : DecidableEq (Except e a) :=
  fun x y =>
  match x, y with
  | Except.error e1, Except.error e2 =>
    if h : e1 = e2 then Decidable.isTrue (by rw [h])
    else Decidable.isFalse (fun hc => h (Except.error.inj hc))
  | Except.error e1, Except.ok v2 => Decidable.isFalse Except.noConfusion
  | Except.ok v1, Except.error e2 => Decidable.isFalse Except.noConfusion
  | Except.ok v1, Except.ok v2 =>
    if h : v1 = v2 then Decidable.isTrue (by rw [h])
    else Decidable.isFalse (fun hc => h (Except.ok.inj hc))

/-- Embeds `SDOCoder::try_decode_rx_frame_from_client`.  `frame_data[0]` is
read with `getD` because the caller has already checked `dlc == 8`. -/
def try_decode_rx_frame_from_client (frame_data : List Nat) :
    Except Unit (Option SdoFrame) :=
  match ClientCommand.tryFrom (frame_data.getD 0 0) with
  | none => Except.ok none
  | some (.ExpeditedDownload length) => do
      let idb ← sliceE frame_data 1 4
      let pl ← sliceE frame_data 4 (4 + length)
      let payload ← vecFromSliceE 4 pl
      Except.ok (some (.ExpeditedDownloadRequest (EntryId.from_bytes idb) payload))
  | some .InitiateSegmentedDownload => do
      let idb ← sliceE frame_data 1 4
      let szb ← sliceE frame_data 4 8
      Except.ok (some (.SegmentedDownloadInitiateRequest (EntryId.from_bytes idb)
        (u32_from_le_bytes szb)))
  | some (.DownloadSegmentRequest toggle length last_seg) => do
      let pl ← sliceE frame_data 1 (1 + length)
      let payload ← vecFromSliceE 7 pl
      Except.ok (some (.SegmentedDownloadRequest toggle last_seg payload))
  | some .InitiateUpload => do
      let idb ← sliceE frame_data 1 4
      Except.ok (some (.UploadRequest (EntryId.from_bytes idb)))
  | some (.UploadSegmentRequest toggle) =>
      Except.ok (some (.SegmentedUploadRequest toggle))
  | some .Abort => do
      let cb ← sliceE frame_data 4 8
      match SdoAbortCode.from_le_bytes cb with
      | none => Except.ok none
      | some code => do
          let idb ← sliceE frame_data 1 4
          Except.ok (some (.Abort (EntryId.from_bytes idb) code))

/-- Embeds `SDOCoder::try_decode_rx_frame_from_server`. -/
def try_decode_rx_frame_from_server (frame_data : List Nat) :
    Except Unit (Option SdoFrame) :=
  match ServerCommand.tryFrom (frame_data.getD 0 0) with
  | none => Except.ok none
  | some .Abort => do
      let cb ← sliceE frame_data 4 8
      match SdoAbortCode.from_le_bytes cb with
      | none => Except.ok none
      | some code => do
          let idb ← sliceE frame_data 1 4
          Except.ok (some (.Abort (EntryId.from_bytes idb) code))
  | some (.DownloadSegmentResponse toggle) =>
      Except.ok (some (.SegmentedDownloadResponse toggle))
  | some .InitiateDownloadResponse => do
      let idb ← sliceE frame_data 1 4
      Except.ok (some (.DownloadInitiateResponse (EntryId.from_bytes idb)))
  | some (.UploadInitiateExpeditedResponse size) => do
      let idb ← sliceE frame_data 1 4
      let pl ← sliceE frame_data 4 (4 + size)
      let payload ← vecFromSliceE 4 pl
      Except.ok (some (.ExpeditedUploadResponse (EntryId.from_bytes idb) payload))
  | some .UploadInitiateSegmentedResponse => do
      let idb ← sliceE frame_data 1 4
      let szb ← sliceE frame_data 4 8
      Except.ok (some (.SegmentedUploadInitiateResponse (EntryId.from_bytes idb)
        (u32_from_le_bytes szb)))
  | some (.UploadSegmentResponse toggle length last) => do
      let pl ← sliceE frame_data 1 (1 + length)
      let payload ← vecFromSliceE 7 pl
      Except.ok (some (.SegmentedUploadResponse toggle last payload))

/-- Embeds `SDOCoder::try_decode_rx_frame`: identifier filter, then length
filter, then role dispatch. -/
def try_decode_rx_frame (self_node_id : NodeId) (node_role : SDORole)
    (frame : EncodedCANOpenFrame) : Except Unit (Option SdoFrame) :=
  match frame.id with
  | Id.standard std =>
    if std ≠ self_node_id.raw + RX_ID_OFFSET then Except.ok none
    else if frame.dlc ≠ 8 then Except.ok none
    else
      match node_role with
      | SDORole.Server => try_decode_rx_frame_from_client frame.data
      | SDORole.Client => try_decode_rx_frame_from_server frame.data
  | Id.extended _ => Except.ok none

/-- Embeds `SDOCoder::build_tx_sdo_frame`: command byte, then the optional
EntryId bytes, then the optional payload bytes, zero-padded to 8 bytes (the
`while !payload.is_full()` loop). -/
def build_tx_sdo_frame (id : Id) (command : Nat) (entry_id : Option EntryId)
    (data : Option (List Nat)) : EncodedCANOpenFrame :=
  let p1 := [command]
  let p2 := p1 ++ (match entry_id with
    | some eid => eid.to_le_bytes
    | none => [])
  let p3 := p2 ++ (match data with
    | some d => d
    | none => [])
  let payload := p3 ++ List.replicate (8 - p3.length) 0
  EncodedCANOpenFrame.from_vec_data id payload

/-- Embeds `SDOCoder::encode_tx_frame`.  The Rust call sites convert the
chosen `ClientCommand`/`ServerCommand` with `Into<u8>`; here the converted
byte is passed to `build_tx_sdo_frame` directly. -/
def encode_tx_frame (tx_id : Id) (sdo_frame : SdoFrame) : EncodedCANOpenFrame :=
  match sdo_frame with
  | .UploadRequest id =>
      build_tx_sdo_frame tx_id (ClientCommand.intoU8 .InitiateUpload) (some id) none
  | .ExpeditedDownloadRequest id payload =>
      build_tx_sdo_frame tx_id
        (ClientCommand.intoU8 (.ExpeditedDownload payload.length)) (some id)
        (some payload)
  | .DownloadInitiateResponse id =>
      build_tx_sdo_frame tx_id (ServerCommand.intoU8 .InitiateDownloadResponse)
        (some id) none
  | .ExpeditedUploadResponse id payload =>
      build_tx_sdo_frame tx_id
        (ServerCommand.intoU8 (.UploadInitiateExpeditedResponse payload.length))
        (some id) (some payload)
  | .SegmentedUploadInitiateResponse id size =>
      build_tx_sdo_frame tx_id
        (ServerCommand.intoU8 .UploadInitiateSegmentedResponse) (some id)
        (some (u32_to_le_bytes size))
  | .SegmentedUploadRequest toggle =>
      build_tx_sdo_frame tx_id
        (ClientCommand.intoU8 (.UploadSegmentRequest toggle)) none none
  | .SegmentedUploadResponse toggle last payload =>
      build_tx_sdo_frame tx_id
        (ServerCommand.intoU8 (.UploadSegmentResponse toggle payload.length last))
        none (some payload)
  | .SegmentedDownloadInitiateRequest id size =>
      build_tx_sdo_frame tx_id
        (ClientCommand.intoU8 .InitiateSegmentedDownload) (some id)
        (some (u32_to_le_bytes size))
  | .SegmentedDownloadRequest toggle last payload =>
      build_tx_sdo_frame tx_id
        (ClientCommand.intoU8 (.DownloadSegmentRequest toggle payload.length last))
        none (some payload)
  | .SegmentedDownloadResponse toggle =>
      build_tx_sdo_frame tx_id
        (ServerCommand.intoU8 (.DownloadSegmentResponse toggle)) none none
  | .Abort id code =>
      build_tx_sdo_frame tx_id (ServerCommand.intoU8 .Abort) (some id)
        (some code.to_le_bytes)

/-- The role that receives a given logical message kind: client-originated
kinds are decoded by a Server, server-originated kinds by a Client.  The
Abort message is encoded with the (identical) server command byte, so it is
grouped with the server-originated kinds. -/
def SdoFrame.receiverRole : SdoFrame → SDORole
  | .UploadRequest _ => SDORole.Server
  | .ExpeditedDownloadRequest _ _ => SDORole.Server
  | .SegmentedDownloadInitiateRequest _ _ => SDORole.Server
  | .SegmentedDownloadRequest _ _ _ => SDORole.Server
  | .SegmentedUploadRequest _ => SDORole.Server
  | .DownloadInitiateResponse _ => SDORole.Client
  | .ExpeditedUploadResponse _ _ => SDORole.Client
  | .SegmentedUploadInitiateResponse _ _ => SDORole.Client
  | .SegmentedUploadResponse _ _ _ => SDORole.Client
  | .SegmentedDownloadResponse _ => SDORole.Client
  | .Abort _ _ => SDORole.Client

/-- Embeds `Variable` from src/object_dictionary.rs.  `new` and
`get_mut_variable` inspect only the `id` field; the remaining fields
(name, storage class, typed value with its coder reference, PDO
mapability, access rights) are inert for those operations and are
abstracted as a single `payload` of arbitrary type, so every theorem below
holds for any field contents. -/
structure Variable (α : Type) where
  id : EntryId
  payload : α
  deriving DecidableEq

/-- Embeds `ObjectDictionary` from src/object_dictionary.rs.  The heapless
`Vec<Variable, ENTRY_COUNT>` is embedded as a list; the two PDO mapping
tables hold `PdoConfiguration` values that no verified operation inspects,
abstracted as a type parameter. -/
structure ObjectDictionary (α β : Type) where
  error_register : Nat
  manufacturer_status_register : Nat
  predefined_errors : List Nat
  entries : List (Variable α)
  tpdo_mappings : List β
  rpdo_mappings : List β

/-- Embeds `ObjectDictionary::new`: stores the device registers and PDO
tables and sorts the entry list by its `EntryId` key
(`e.sort_by_key(|v| v.id)`); the sort is embedded as insertion sort on the
derived key order, which produces the same sorted permutation. -/
def ObjectDictionary.new {α β : Type} (error_register : Nat)
    (manufacturer_status_register : Nat) (predefined_errors : List Nat)
    (tpdo_mappings rpdo_mappings : List β) (entries : List (Variable α)) :
    ObjectDictionary α β :=
  { error_register := error_register
    manufacturer_status_register := manufacturer_status_register
    predefined_errors := predefined_errors
    entries := List.insertionSort (fun v w => EntryId.le v.id w.id) entries
    tpdo_mappings := tpdo_mappings
    rpdo_mappings := rpdo_mappings }

/-- Embeds core `slice::binary_search_by_key` (as reached through
`entries.binary_search_by_key(&id, |v| v.id)`): the standard half-interval
loop, comparing the key at `mid` with the target.  `left`/`right` are the
loop variables; the loop runs while `left < right`. -/
def binary_search_by_key {α : Type} (entries : List (Variable α))
    (id : EntryId) (left right : Nat) : Option Nat :=
  if left < right then
    let mid := left + (right - left) / 2
    match entries.get? mid with
    | none => none
    | some v =>
      match EntryId.cmp v.id id with
      | Ordering.lt => binary_search_by_key entries id (mid + 1) right
      | Ordering.gt => binary_search_by_key entries id left mid
      | Ordering.eq => some mid
  else none
termination_by right - left
decreasing_by all_goals omega

/-- Embeds `ObjectDictionary::get_mut_variable`: binary search over the
sorted entries, returning the found entry (`Ok(idx) => entries[idx]`) or
`none` (`Err(_) => None`). -/
def ObjectDictionary.get_mut_variable {α β : Type} (od : ObjectDictionary α β)
    (id : EntryId) : Option (Variable α) :=
  match binary_search_by_key od.entries id 0 od.entries.length with
  | some idx => od.entries.get? idx
  | none => none

/-- Side condition on an `SdoFrame`: the payload of an expedited message is
nonempty.  Every length expressible by the 2-bit complement field of the
expedited command byte lies in 1..=4, so only this case is excluded from
the round-trip property. -/
def SdoFrame.expeditedNonempty : SdoFrame → Prop
  | .ExpeditedDownloadRequest _ p => p ≠ []
  | .ExpeditedUploadResponse _ p => p ≠ []
  | _ => True

instance : DecidablePred SdoFrame.expeditedNonempty := fun f => by
  cases f <;> (unfold SdoFrame.expeditedNonempty; infer_instance)

/-- Number of leading data bytes of an encoded frame that carry content
(command byte, EntryId bytes, payload/size/abort-code bytes); the bytes
after them are padding. -/
def SdoFrame.contentLen : SdoFrame → Nat
  | .UploadRequest _ => 4
  | .ExpeditedDownloadRequest _ p => 4 + p.length
  | .DownloadInitiateResponse _ => 4
  | .ExpeditedUploadResponse _ p => 4 + p.length
  | .SegmentedUploadInitiateResponse _ _ => 8
  | .SegmentedUploadRequest _ => 1
  | .SegmentedUploadResponse _ _ p => 1 + p.length
  | .SegmentedDownloadInitiateRequest _ _ => 8
  | .SegmentedDownloadRequest _ _ p => 1 + p.length
  | .SegmentedDownloadResponse _ => 1
  | .Abort _ _ => 8

/-- The command byte patterns of the segment-class messages a given role
decodes: for a Server, client family 0 (download-segment request) and 3
(upload-segment request); for a Client, server family 0 (upload-segment
response) and 1 (download-segment response). -/
def segment_class (role : SDORole) (b0 : Nat) : Prop :=
  match role with
  | SDORole.Server => b0 >>> 5 = 0 ∨ b0 >>> 5 = 3
  | SDORole.Client => (b0 >>> 5) &&& 7 = 0 ∨ (b0 >>> 5) &&& 7 = 1

instance (role : SDORole) (b0 : Nat) : Decidable (segment_class role b0) :=
  match role with
  | SDORole.Server => inferInstanceAs (Decidable (_ ∨ _))
  | SDORole.Client => inferInstanceAs (Decidable (_ ∨ _))

/-- The payload length a segment-class command byte declares: the 3-bit
complement field for the payload-carrying kinds (family 0), zero for the
payload-free kinds. -/
def segment_declared_len (role : SDORole) (b0 : Nat) : Nat :=
  match role with
  | SDORole.Server => if b0 >>> 5 = 0 then 7 - ((b0 >>> 1) &&& 7) else 0
  | SDORole.Client => if (b0 >>> 5) &&& 7 = 0 then 7 - ((b0 >>> 1) &&& 7) else 0

/-! ## Theorems -/

/-- C9: `NodeId::new(n)` returns a value exactly when n is in [0,127] and
no value for every n greater than 127; the returned NodeId's raw value
equals n (the value is immutable after construction, so this is the only
observation); the default NodeId has raw value 126. -/
theorem nodeid_new_spec (n : Nat) (_hn : n < 256) :
    ((NodeId.new n).isSome ↔ n ≤ 127) ∧
    (∀ m : NodeId, NodeId.new n = some m → m.raw = n) ∧
    NodeId.default.raw = 126 := by
  refine ⟨?_, ?_, rfl⟩
  · unfold NodeId.new
    split <;> simp_all
  · intro m hm
    unfold NodeId.new at hm
    split at hm
    · cases hm; rfl
    · cases hm

/-- Witness for `nodeid_new_spec`: instantiation at n = 130 and n = 0. -/
theorem nodeid_new_spec_witness :
    ((NodeId.new 130).isSome ↔ 130 ≤ 127) ∧ NodeId.default.raw = 126 :=
  ⟨(nodeid_new_spec 130 (by decide)).1, (nodeid_new_spec 0 (by decide)).2.2⟩

/-- C2 (evaluation of the code bug): `CobId::new` packs `enabled` and
`rtr_allowed` directly into bits 31/30 while `is_valid`/`rtr_allowed` read
those bits negated, and it never sets the bit-29 extended flag, so an
enabled CobId reads back as invalid, RTR-allowed reads back as
disallowed, and an extended identifier reads back as a standard identifier
masked to 11 bits. -/
theorem cobid_new_accessors_inverted :
    ((CobId.new true true (FrameId.Extended 0x1ABCDEF0)).is_valid = false) ∧
    ((CobId.new true true (FrameId.Extended 0x1ABCDEF0)).rtr_allowed = false) ∧
    ((CobId.new true true (FrameId.Extended 0x1ABCDEF0)).assigned_frame_id =
      FrameId.Standard 0x6F0) ∧
    ((CobId.new false false (FrameId.Standard 0x605)).is_valid = true) ∧
    ((CobId.new false false (FrameId.Standard 0x605)).rtr_allowed = true) := by
  decide

/-- C4: a received frame whose identifier is not the standard identifier
node_address + 0x600 (including every extended identifier), or whose data
length is not 8, decodes to no value, for either role and any payload. -/
theorem decode_address_filter (nid : NodeId) (role : SDORole)
    (frame : EncodedCANOpenFrame)
    (h : frame.id ≠ Id.standard (nid.raw + RX_ID_OFFSET) ∨
      frame.data.length ≠ 8) :
    try_decode_rx_frame nid role frame = Except.ok none := by
  obtain ⟨fid, data⟩ := frame
  cases fid with
  | extended e => rfl
  | standard s =>
    by_cases hs : s = nid.raw + RX_ID_OFFSET
    · subst hs
      rcases h with h | h
      · exact absurd rfl h
      · simp only at h
        simp [try_decode_rx_frame, EncodedCANOpenFrame.dlc, h]
    · simp [try_decode_rx_frame, hs]

/-- Witness for `decode_address_filter`: an extended-identifier frame and a
short frame at the right address both decode to no value. -/
theorem decode_address_filter_witness :
    try_decode_rx_frame ⟨5⟩ SDORole.Server
      ⟨Id.extended 0x605, [64, 0, 32, 1, 0, 0, 0, 0]⟩ = Except.ok none ∧
    try_decode_rx_frame ⟨5⟩ SDORole.Client
      ⟨Id.standard 0x605, [64, 0, 32]⟩ = Except.ok none :=
  ⟨decode_address_filter ⟨5⟩ SDORole.Server _ (Or.inl (by decide)),
   decode_address_filter ⟨5⟩ SDORole.Client _ (Or.inr (by decide))⟩

set_option maxRecDepth 8000 in
/-- C5: for a client command byte with top 3 bits 0 the decoded segment
payload length is the complement `7 - ((b >>> 1) &&& 0b111)`; with top 3
bits 1 and bit 1 set the decoded expedited payload length is
`4 - ((b >>> 2) &&& 0b11)`; and for every length in the admissible range of
each field (0..=7 for segments, 1..=4 for expedited), constructing the
command, serializing it and decoding the byte returns that same length. -/
theorem client_command_length_complement :
    (∀ b : Nat, b < 256 → b >>> 5 = 0 →
      ∃ t last, ClientCommand.tryFrom b =
        some (ClientCommand.DownloadSegmentRequest t (7 - ((b >>> 1) &&& 7)) last)) ∧
    (∀ b : Nat, b < 256 → b >>> 5 = 1 → (b >>> 1) &&& 1 = 1 →
      ClientCommand.tryFrom b =
        some (ClientCommand.ExpeditedDownload (4 - ((b >>> 2) &&& 3)))) ∧
    (∀ len : Nat, len ≤ 7 → ∀ t last : Bool,
      ∃ t2 last2, ClientCommand.tryFrom
        (ClientCommand.intoU8 (ClientCommand.DownloadSegmentRequest t len last)) =
        some (ClientCommand.DownloadSegmentRequest t2 len last2)) ∧
    (∀ len : Nat, 1 ≤ len → len ≤ 4 →
      ClientCommand.tryFrom
        (ClientCommand.intoU8 (ClientCommand.ExpeditedDownload len)) =
        some (ClientCommand.ExpeditedDownload len)) := by
  refine ⟨?_, ?_, ?_, ?_⟩ <;> decide

/-- Witness for `client_command_length_complement`: byte 0x16 decodes as a
download-segment request of length 4; expedited length 3 round-trips. -/
theorem client_command_length_complement_witness :
    (∃ t last, ClientCommand.tryFrom 0x16 =
      some (ClientCommand.DownloadSegmentRequest t (7 - ((0x16 >>> 1) &&& 7)) last)) ∧
    ClientCommand.tryFrom
      (ClientCommand.intoU8 (ClientCommand.ExpeditedDownload 3)) =
      some (ClientCommand.ExpeditedDownload 3) :=
  ⟨client_command_length_complement.1 0x16 (by decide) (by decide),
   client_command_length_complement.2.2.2 3 (by decide) (by decide)⟩

set_option maxHeartbeats 1000000 in
/-- Helper: when the derived `from_u32` recognizes a value, that value is
the discriminant of the returned member. -/
theorem fromU32_eq_some {v : Nat} {c : SdoAbortCode}
    (h : SdoAbortCode.fromU32 v = some c) : c.toU32 = v := by
  unfold SdoAbortCode.fromU32 at h
  by_cases hc1 : v = 0x05030000
  · rw [if_pos hc1] at h
    injection h with h2
    subst h2
    simp only [SdoAbortCode.toU32]
    omega
  rw [if_neg hc1] at h
  by_cases hc2 : v = 0x05040000
  · rw [if_pos hc2] at h
    injection h with h2
    subst h2
    simp only [SdoAbortCode.toU32]
    omega
  rw [if_neg hc2] at h
  by_cases hc3 : v = 0x05040001
  · rw [if_pos hc3] at h
    injection h with h2
    subst h2
    simp only [SdoAbortCode.toU32]
    omega
  rw [if_neg hc3] at h
  by_cases hc4 : v = 0x05040002
  · rw [if_pos hc4] at h
    injection h with h2
    subst h2
    simp only [SdoAbortCode.toU32]
    omega
  rw [if_neg hc4] at h
  by_cases hc5 : v = 0x05040003
  · rw [if_pos hc5] at h
    injection h with h2
    subst h2
    simp only [SdoAbortCode.toU32]
    omega
  rw [if_neg hc5] at h
  by_cases hc6 : v = 0x05040004
  · rw [if_pos hc6] at h
    injection h with h2
    subst h2
    simp only [SdoAbortCode.toU32]
    omega
  rw [if_neg hc6] at h
  by_cases hc7 : v = 0x05040005
  · rw [if_pos hc7] at h
    injection h with h2
    subst h2
    simp only [SdoAbortCode.toU32]
    omega
  rw [if_neg hc7] at h
  by_cases hc8 : v = 0x06010000
  · rw [if_pos hc8] at h
    injection h with h2
    subst h2
    simp only [SdoAbortCode.toU32]
    omega
  rw [if_neg hc8] at h
  by_cases hc9 : v = 0x06010001
  · rw [if_pos hc9] at h
    injection h with h2
    subst h2
    simp only [SdoAbortCode.toU32]
    omega
  rw [if_neg hc9] at h
  by_cases hc10 : v = 0x06010002
  · rw [if_pos hc10] at h
    injection h with h2
    subst h2
    simp only [SdoAbortCode.toU32]
    omega
  rw [if_neg hc10] at h
  by_cases hc11 : v = 0x06020000
  · rw [if_pos hc11] at h
    injection h with h2
    subst h2
    simp only [SdoAbortCode.toU32]
    omega
  rw [if_neg hc11] at h
  by_cases hc12 : v = 0x06040041
  · rw [if_pos hc12] at h
    injection h with h2
    subst h2
    simp only [SdoAbortCode.toU32]
    omega
  rw [if_neg hc12] at h
  by_cases hc13 : v = 0x06040042
  · rw [if_pos hc13] at h
    injection h with h2
    subst h2
    simp only [SdoAbortCode.toU32]
    omega
  rw [if_neg hc13] at h
  by_cases hc14 : v = 0x06040043
  · rw [if_pos hc14] at h
    injection h with h2
    subst h2
    simp only [SdoAbortCode.toU32]
    omega
  rw [if_neg hc14] at h
  by_cases hc15 : v = 0x06040047
  · rw [if_pos hc15] at h
    injection h with h2
    subst h2
    simp only [SdoAbortCode.toU32]
    omega
  rw [if_neg hc15] at h
  by_cases hc16 : v = 0x06060000
  · rw [if_pos hc16] at h
    injection h with h2
    subst h2
    simp only [SdoAbortCode.toU32]
    omega
  rw [if_neg hc16] at h
  by_cases hc17 : v = 0x06070010
  · rw [if_pos hc17] at h
    injection h with h2
    subst h2
    simp only [SdoAbortCode.toU32]
    omega
  rw [if_neg hc17] at h
  by_cases hc18 : v = 0x06070012
  · rw [if_pos hc18] at h
    injection h with h2
    subst h2
    simp only [SdoAbortCode.toU32]
    omega
  rw [if_neg hc18] at h
  by_cases hc19 : v = 0x06070013
  · rw [if_pos hc19] at h
    injection h with h2
    subst h2
    simp only [SdoAbortCode.toU32]
    omega
  rw [if_neg hc19] at h
  by_cases hc20 : v = 0x06090011
  · rw [if_pos hc20] at h
    injection h with h2
    subst h2
    simp only [SdoAbortCode.toU32]
    omega
  rw [if_neg hc20] at h
  by_cases hc21 : v = 0x06090030
  · rw [if_pos hc21] at h
    injection h with h2
    subst h2
    simp only [SdoAbortCode.toU32]
    omega
  rw [if_neg hc21] at h
  by_cases hc22 : v = 0x06090031
  · rw [if_pos hc22] at h
    injection h with h2
    subst h2
    simp only [SdoAbortCode.toU32]
    omega
  rw [if_neg hc22] at h
  by_cases hc23 : v = 0x06090032
  · rw [if_pos hc23] at h
    injection h with h2
    subst h2
    simp only [SdoAbortCode.toU32]
    omega
  rw [if_neg hc23] at h
  by_cases hc24 : v = 0x06090036
  · rw [if_pos hc24] at h
    injection h with h2
    subst h2
    simp only [SdoAbortCode.toU32]
    omega
  rw [if_neg hc24] at h
  by_cases hc25 : v = 0x060A0023
  · rw [if_pos hc25] at h
    injection h with h2
    subst h2
    simp only [SdoAbortCode.toU32]
    omega
  rw [if_neg hc25] at h
  by_cases hc26 : v = 0x08000000
  · rw [if_pos hc26] at h
    injection h with h2
    subst h2
    simp only [SdoAbortCode.toU32]
    omega
  rw [if_neg hc26] at h
  by_cases hc27 : v = 0x08000020
  · rw [if_pos hc27] at h
    injection h with h2
    subst h2
    simp only [SdoAbortCode.toU32]
    omega
  rw [if_neg hc27] at h
  by_cases hc28 : v = 0x08000021
  · rw [if_pos hc28] at h
    injection h with h2
    subst h2
    simp only [SdoAbortCode.toU32]
    omega
  rw [if_neg hc28] at h
  by_cases hc29 : v = 0x08000022
  · rw [if_pos hc29] at h
    injection h with h2
    subst h2
    simp only [SdoAbortCode.toU32]
    omega
  rw [if_neg hc29] at h
  by_cases hc30 : v = 0x08000023
  · rw [if_pos hc30] at h
    injection h with h2
    subst h2
    simp only [SdoAbortCode.toU32]
    omega
  rw [if_neg hc30] at h
  by_cases hc31 : v = 0x08000024
  · rw [if_pos hc31] at h
    injection h with h2
    subst h2
    simp only [SdoAbortCode.toU32]
    omega
  rw [if_neg hc31] at h
  exact Option.noConfusion h

set_option maxHeartbeats 1000000 in
set_option maxRecDepth 10000 in
/-- C3 counterexample: the SdoAbortCode enumeration has 31 members, not
30. -/
theorem sdo_abort_code_card : Fintype.card SdoAbortCode = 31 ∧
    Fintype.card SdoAbortCode ≠ 30 := by
  have h : Fintype.card SdoAbortCode = 31 := rfl
  exact ⟨h, by omega⟩

set_option maxHeartbeats 1000000 in
set_option maxRecDepth 10000 in
/-- C3 (amended): the SdoAbortCode enumeration consists of exactly 31
codes; each member serializes to the 4 little-endian bytes of its literal
32-bit value and deserializes back to itself; a 4-byte sequence that
encodes no member deserializes to no value, as does any sequence whose
length is not 4. -/
theorem sdo_abort_code_roundtrip :
    Fintype.card SdoAbortCode = 31 ∧
    (∀ c : SdoAbortCode,
      (SdoAbortCode.to_le_bytes c).length = 4 ∧
      u32_from_le_bytes (SdoAbortCode.to_le_bytes c) = c.toU32 ∧
      SdoAbortCode.from_le_bytes (SdoAbortCode.to_le_bytes c) = some c) ∧
    (∀ bytes : List Nat, bytes.length = 4 → (∀ b ∈ bytes, b < 256) →
      (∀ c : SdoAbortCode, bytes ≠ SdoAbortCode.to_le_bytes c) →
      SdoAbortCode.from_le_bytes bytes = none) ∧
    (∀ bytes : List Nat, bytes.length ≠ 4 →
      SdoAbortCode.from_le_bytes bytes = none) := by
  refine ⟨rfl, ?_, ?_, ?_⟩
  · intro c
    cases c <;> exact ⟨by decide, by decide, by decide⟩
  · intro bytes hlen hbytes hne
    rcases hfrom : SdoAbortCode.from_le_bytes bytes with _ | c
    · rfl
    · exfalso
      unfold SdoAbortCode.from_le_bytes at hfrom
      rw [if_neg (by omega)] at hfrom
      have hv : c.toU32 = u32_from_le_bytes bytes := fromU32_eq_some hfrom
      apply hne c
      rcases bytes with _ | ⟨b0, bytes⟩; · simp at hlen
      rcases bytes with _ | ⟨b1, bytes⟩; · simp at hlen
      rcases bytes with _ | ⟨b2, bytes⟩; · simp at hlen
      rcases bytes with _ | ⟨b3, bytes⟩; · simp at hlen
      rcases bytes with _ | ⟨b4, bytes⟩
      · have hb0 : b0 < 256 := hbytes b0 (by simp)
        have hb1 : b1 < 256 := hbytes b1 (by simp)
        have hb2 : b2 < 256 := hbytes b2 (by simp)
        have hb3 : b3 < 256 := hbytes b3 (by simp)
        unfold u32_from_le_bytes at hv
        simp only [List.getD_cons_zero, List.getD_cons_succ] at hv
        unfold SdoAbortCode.to_le_bytes u32_to_le_bytes
        have hc : c.toU32 < 4294967296 := by cases c <;> decide
        simp only [List.cons.injEq, and_true]
        refine ⟨?_, ?_, ?_, ?_⟩ <;> omega
      · simp at hlen
  · intro bytes hlen
    unfold SdoAbortCode.from_le_bytes
    rw [if_pos hlen]

/-- Witness for `sdo_abort_code_roundtrip`: a non-member 4-byte value and a
wrong-length value both decode to no value. -/
theorem sdo_abort_code_roundtrip_witness :
    SdoAbortCode.from_le_bytes [1, 0, 3, 5] = none ∧
    SdoAbortCode.from_le_bytes [0, 0] = none :=
  ⟨sdo_abort_code_roundtrip.2.2.1 [1, 0, 3, 5] (by decide) (by decide) (by decide),
   sdo_abort_code_roundtrip.2.2.2 [0, 0] (by decide)⟩

/-- Helper: `Except.ok` is a left unit for bind. -/
theorem except_bind_ok {ε α β : Type} (a : α) (f : α → Except ε β) :
    (Except.ok a : Except ε α) >>= f = f a := rfl

/-- Helper: a slice with in-range bounds succeeds. -/
theorem sliceE_ok (data : List Nat) (lo hi : Nat) (h1 : lo ≤ hi)
    (h2 : hi ≤ data.length) :
    sliceE data lo hi = Except.ok ((data.drop lo).take (hi - lo)) := by
  unfold sliceE
  rw [if_pos ⟨h1, h2⟩]

/-- Helper: every decoded download-segment length is at most 7. -/
theorem tryFrom_dsr_len {b : Nat} {t l : Bool} {n : Nat}
    (h : ClientCommand.tryFrom b =
      some (ClientCommand.DownloadSegmentRequest t n l)) : n ≤ 7 := by
  unfold ClientCommand.tryFrom at h
  split at h
  all_goals try (split at h)
  all_goals try exact Option.noConfusion h
  all_goals injection h with h2
  all_goals try exact ClientCommand.noConfusion h2
  injection h2 with e1 e2 e3
  exact e2 ▸ Nat.sub_le 7 _

/-- Helper: every decoded expedited-download length lies in 1..=4. -/
theorem tryFrom_exp_len {b n : Nat}
    (h : ClientCommand.tryFrom b = some (ClientCommand.ExpeditedDownload n)) :
    1 ≤ n ∧ n ≤ 4 := by
  unfold ClientCommand.tryFrom at h
  split at h
  all_goals try (split at h)
  all_goals try exact Option.noConfusion h
  all_goals injection h with h2
  all_goals try exact ClientCommand.noConfusion h2
  injection h2 with e1
  have hb : (b >>> 2) &&& 3 ≤ 3 := Nat.and_le_right
  omega

/-- Helper: every decoded upload-segment-response length is at most 7. -/
theorem tryFromS_usr_len {b : Nat} {t l : Bool} {n : Nat}
    (h : ServerCommand.tryFrom b =
      some (ServerCommand.UploadSegmentResponse t n l)) : n ≤ 7 := by
  unfold ServerCommand.tryFrom at h
  split at h
  all_goals try (split at h)
  all_goals try exact Option.noConfusion h
  all_goals injection h with h2
  all_goals try exact ServerCommand.noConfusion h2
  injection h2 with e1 e2 e3
  exact e2 ▸ Nat.sub_le 7 _

/-- Helper: every decoded expedited-upload-response length lies in 1..=4. -/
theorem tryFromS_uier_len {b n : Nat}
    (h : ServerCommand.tryFrom b =
      some (ServerCommand.UploadInitiateExpeditedResponse n)) :
    1 ≤ n ∧ n ≤ 4 := by
  unfold ServerCommand.tryFrom at h
  split at h
  all_goals try (split at h)
  all_goals try exact Option.noConfusion h
  all_goals injection h with h2
  all_goals try exact ServerCommand.noConfusion h2
  injection h2 with e1
  have hb : (b >>> 2) &&& 3 ≤ 3 := Nat.and_le_right
  omega

/-- Helper: an `isOk` computation has an `ok` value. -/
theorem except_isOk_exists {ε α : Type} {e : Except ε α} (h : e.isOk = true) :
    ∃ r, e = Except.ok r := by
  cases e with
  | error err => simp [Except.isOk, Except.toBool] at h
  | ok r => exact ⟨r, rfl⟩

/-- Helper: decoding an 8-byte payload in the Server role cannot panic. -/
theorem from_client_total (data : List Nat) (h : data.length = 8) :
    (try_decode_rx_frame_from_client data).isOk = true := by
  rcases hc : ClientCommand.tryFrom (data.getD 0 0) with _ | c
  · unfold try_decode_rx_frame_from_client
    rw [hc]
    rfl
  cases c with
  | ExpeditedDownload n =>
    obtain ⟨h1, h4⟩ := tryFrom_exp_len hc
    have s1 := sliceE_ok data 1 (4) (by omega) (by omega)
    have s2 := sliceE_ok data 4 (4 + n) (by omega) (by omega)
    have s3 : vecFromSliceE 4 ((data.drop 4).take (4 + n - 4)) =
        Except.ok ((data.drop 4).take (4 + n - 4)) := by
      unfold vecFromSliceE
      rw [if_pos]
      simp [List.length_take, List.length_drop]
      omega
    unfold try_decode_rx_frame_from_client
    rw [hc]
    simp only [s1, s2, s3, except_bind_ok]
    rfl
  | InitiateSegmentedDownload =>
    have s1 := sliceE_ok data 1 (4) (by omega) (by omega)
    have s2 := sliceE_ok data 4 (8) (by omega) (by omega)
    unfold try_decode_rx_frame_from_client
    rw [hc]
    simp only [s1, s2, except_bind_ok]
    rfl
  | DownloadSegmentRequest t n l =>
    have h7 := tryFrom_dsr_len hc
    have s1 := sliceE_ok data 1 (1 + n) (by omega) (by omega)
    have s3 : vecFromSliceE 7 ((data.drop 1).take (1 + n - 1)) =
        Except.ok ((data.drop 1).take (1 + n - 1)) := by
      unfold vecFromSliceE
      rw [if_pos]
      simp [List.length_take, List.length_drop]
      omega
    unfold try_decode_rx_frame_from_client
    rw [hc]
    simp only [s1, s3, except_bind_ok]
    rfl
  | InitiateUpload =>
    have s1 := sliceE_ok data 1 (4) (by omega) (by omega)
    unfold try_decode_rx_frame_from_client
    rw [hc]
    simp only [s1, except_bind_ok]
    rfl
  | UploadSegmentRequest t =>
    unfold try_decode_rx_frame_from_client
    rw [hc]
    rfl
  | Abort =>
    have s1 := sliceE_ok data 1 (4) (by omega) (by omega)
    have s2 := sliceE_ok data 4 (8) (by omega) (by omega)
    unfold try_decode_rx_frame_from_client
    rw [hc]
    simp only [s1, s2, except_bind_ok]
    split
    · rfl
    · rfl

/-- Helper: decoding an 8-byte payload in the Client role cannot panic. -/
theorem from_server_total (data : List Nat) (h : data.length = 8) :
    (try_decode_rx_frame_from_server data).isOk = true := by
  rcases hc : ServerCommand.tryFrom (data.getD 0 0) with _ | c
  · unfold try_decode_rx_frame_from_server
    rw [hc]
    rfl
  cases c with
  | UploadInitiateExpeditedResponse n =>
    obtain ⟨h1, h4⟩ := tryFromS_uier_len hc
    have s1 := sliceE_ok data 1 (4) (by omega) (by omega)
    have s2 := sliceE_ok data 4 (4 + n) (by omega) (by omega)
    have s3 : vecFromSliceE 4 ((data.drop 4).take (4 + n - 4)) =
        Except.ok ((data.drop 4).take (4 + n - 4)) := by
      unfold vecFromSliceE
      rw [if_pos]
      simp [List.length_take, List.length_drop]
      omega
    unfold try_decode_rx_frame_from_server
    rw [hc]
    simp only [s1, s2, s3, except_bind_ok]
    rfl
  | UploadInitiateSegmentedResponse =>
    have s1 := sliceE_ok data 1 (4) (by omega) (by omega)
    have s2 := sliceE_ok data 4 (8) (by omega) (by omega)
    unfold try_decode_rx_frame_from_server
    rw [hc]
    simp only [s1, s2, except_bind_ok]
    rfl
  | UploadSegmentResponse t n l =>
    have h7 := tryFromS_usr_len hc
    have s1 := sliceE_ok data 1 (1 + n) (by omega) (by omega)
    have s3 : vecFromSliceE 7 ((data.drop 1).take (1 + n - 1)) =
        Except.ok ((data.drop 1).take (1 + n - 1)) := by
      unfold vecFromSliceE
      rw [if_pos]
      simp [List.length_take, List.length_drop]
      omega
    unfold try_decode_rx_frame_from_server
    rw [hc]
    simp only [s1, s3, except_bind_ok]
    rfl
  | InitiateDownloadResponse =>
    have s1 := sliceE_ok data 1 (4) (by omega) (by omega)
    unfold try_decode_rx_frame_from_server
    rw [hc]
    simp only [s1, except_bind_ok]
    rfl
  | DownloadSegmentResponse t =>
    unfold try_decode_rx_frame_from_server
    rw [hc]
    rfl
  | Abort =>
    have s1 := sliceE_ok data 1 (4) (by omega) (by omega)
    have s2 := sliceE_ok data 4 (8) (by omega) (by omega)
    unfold try_decode_rx_frame_from_server
    rw [hc]
    simp only [s1, s2, except_bind_ok]
    split
    · rfl
    · rfl

/-- C10: on a correctly addressed frame with 8 data bytes, decoding is
total for any payload byte content in either role: every internal slice
stays inside the 8-byte payload and every bounded-vector construction
succeeds (decoded expedited lengths lie in 1..=4 and decoded segment
lengths in 0..=7), so decoding never panics. -/
theorem decode_never_panics (nid : NodeId) (role : SDORole) (data : List Nat)
    (hlen : data.length = 8) (_hbytes : ∀ b ∈ data, b < 256) :
    ∃ r, try_decode_rx_frame nid role
      ⟨Id.standard (nid.raw + RX_ID_OFFSET), data⟩ = Except.ok r := by
  apply except_isOk_exists
  unfold try_decode_rx_frame
  simp only [EncodedCANOpenFrame.dlc]
  rw [if_neg (by simp), if_neg (by omega)]
  cases role with
  | Server => exact from_client_total data hlen
  | Client => exact from_server_total data hlen

/-- Witness for `decode_never_panics`: a concrete all-ones payload decodes
without a panic. -/
theorem decode_never_panics_witness :
    ∃ r, try_decode_rx_frame ⟨5⟩ SDORole.Server
      ⟨Id.standard (5 + RX_ID_OFFSET), [255, 255, 255, 255, 255, 255, 255, 255]⟩ =
      Except.ok r :=
  decode_never_panics ⟨5⟩ SDORole.Server _ (by decide) (by decide)

/-- Helper: indexing into the zero padding of a padded list yields 0. -/
theorem getD_append_replicate_zero (l : List Nat) (k i : Nat)
    (h : l.length ≤ i) : (l ++ List.replicate k 0).getD i 0 = 0 := by
  rw [List.getD_eq_getElem?_getD, List.getElem?_append_right h]
  rcases Nat.lt_or_ge (i - l.length) k with hk | hk
  · simp [List.getElem?_replicate, hk]
  · rw [List.getElem?_eq_none (by simpa using hk)]
    rfl

/-- Helper: shape of an 8-byte zero-padded buffer. -/
theorem pad_to_eight_spec (l : List Nat) (h : l.length ≤ 8) :
    (l ++ List.replicate (8 - l.length) 0).length = 8 ∧
    ∀ i, l.length ≤ i → (l ++ List.replicate (8 - l.length) 0).getD i 0 = 0 := by
  constructor
  · simp only [List.length_append, List.length_replicate]
    omega
  · intro i hi
    exact getD_append_replicate_zero l _ i hi

/-- Helper: shape of every frame produced by `build_tx_sdo_frame`: the
identifier is passed through, the data is exactly 8 bytes, and every byte
past the content is zero padding. -/
theorem build_tx_frame_shape (id : Id) (cmd : Nat) (eid : Option EntryId)
    (d : Option (List Nat))
    (h : 1 + (match eid with | some _ => 3 | none => 0) +
      (match d with | some l => l.length | none => 0) ≤ 8) :
    (build_tx_sdo_frame id cmd eid d).id = id ∧
    (build_tx_sdo_frame id cmd eid d).data.length = 8 ∧
    ∀ i, 1 + (match eid with | some _ => 3 | none => 0) +
      (match d with | some l => l.length | none => 0) ≤ i →
      (build_tx_sdo_frame id cmd eid d).data.getD i 0 = 0 := by
  rcases eid with _ | e
  · rcases d with _ | l
    · refine ⟨rfl, ?_, ?_⟩
      · exact (pad_to_eight_spec (([cmd] ++ []) ++ []) (by simp)).1
      · intro i hi
        simp only at hi
        exact (pad_to_eight_spec (([cmd] ++ []) ++ []) (by simp)).2 i
          (by simp; omega)
    · simp only at h
      refine ⟨rfl, ?_, ?_⟩
      · exact (pad_to_eight_spec (([cmd] ++ []) ++ l) (by simp; omega)).1
      · intro i hi
        simp only at hi
        exact (pad_to_eight_spec (([cmd] ++ []) ++ l) (by simp; omega)).2 i
          (by simp; omega)
  · rcases d with _ | l
    · refine ⟨rfl, ?_, ?_⟩
      · exact (pad_to_eight_spec (([cmd] ++ e.to_le_bytes) ++ [])
          (by simp [EntryId.to_le_bytes])).1
      · intro i hi
        simp only at hi
        exact (pad_to_eight_spec (([cmd] ++ e.to_le_bytes) ++ [])
          (by simp [EntryId.to_le_bytes])).2 i
          (by simp [EntryId.to_le_bytes]; omega)
    · simp only at h
      refine ⟨rfl, ?_, ?_⟩
      · exact (pad_to_eight_spec (([cmd] ++ e.to_le_bytes) ++ l)
          (by simp [EntryId.to_le_bytes]; omega)).1
      · intro i hi
        simp only at hi
        exact (pad_to_eight_spec (([cmd] ++ e.to_le_bytes) ++ l)
          (by simp [EntryId.to_le_bytes]; omega)).2 i
          (by simp [EntryId.to_le_bytes]; omega)

/-- C7 counterexample: `encode_tx_frame` passes the caller-supplied target
identifier through unchanged, so an extended identifier produces an
extended frame, contradicting the claim that every produced frame has a
standard identifier. -/
theorem encode_extended_id_passthrough :
    (encode_tx_frame (Id.extended 0x12345)
      (SdoFrame.SegmentedUploadRequest false)).is_extended = true ∧
    (encode_tx_frame (Id.extended 0x12345)
      (SdoFrame.SegmentedUploadRequest false)).id = Id.extended 0x12345 := by
  decide

/-- C7 (amended): for every SdoFrame and caller-supplied target identifier,
`encode_tx_frame` returns a frame carrying exactly that identifier (standard
only when the caller passes a standard one), with exactly 8 data bytes,
with the remote-frame flag false, and with every byte after the
command/EntryId/payload content equal to zero. -/
theorem encode_frame_shape (tx_id : Id) (v : SdoFrame) (hwf : v.WF) :
    (encode_tx_frame tx_id v).id = tx_id ∧
    (encode_tx_frame tx_id v).data.length = 8 ∧
    (encode_tx_frame tx_id v).is_remote_frame = false ∧
    ∀ i, v.contentLen ≤ i → i < 8 →
      (encode_tx_frame tx_id v).data.getD i 0 = 0 := by
  cases v with
  | UploadRequest eid =>
    obtain ⟨h1, h2, h3⟩ := build_tx_frame_shape tx_id
      (ClientCommand.intoU8 ClientCommand.InitiateUpload) (some eid) none
      (by simp)
    exact ⟨h1, h2, rfl, fun i hi _ => h3 i (by simpa [SdoFrame.contentLen] using hi)⟩
  | ExpeditedDownloadRequest eid p =>
    obtain ⟨hid, hp, hb⟩ := hwf
    obtain ⟨h1, h2, h3⟩ := build_tx_frame_shape tx_id
      (ClientCommand.intoU8 (ClientCommand.ExpeditedDownload p.length)) (some eid)
      (some p) (by simp; omega)
    exact ⟨h1, h2, rfl, fun i hi _ => h3 i (by simp only [SdoFrame.contentLen] at hi; simp; omega)⟩
  | DownloadInitiateResponse eid =>
    obtain ⟨h1, h2, h3⟩ := build_tx_frame_shape tx_id
      (ServerCommand.intoU8 ServerCommand.InitiateDownloadResponse) (some eid) none
      (by simp)
    exact ⟨h1, h2, rfl, fun i hi _ => h3 i (by simpa [SdoFrame.contentLen] using hi)⟩
  | ExpeditedUploadResponse eid p =>
    obtain ⟨hid, hp, hb⟩ := hwf
    obtain ⟨h1, h2, h3⟩ := build_tx_frame_shape tx_id
      (ServerCommand.intoU8 (ServerCommand.UploadInitiateExpeditedResponse p.length))
      (some eid) (some p) (by simp; omega)
    exact ⟨h1, h2, rfl, fun i hi _ => h3 i (by simp only [SdoFrame.contentLen] at hi; simp; omega)⟩
  | SegmentedUploadInitiateResponse eid size =>
    obtain ⟨h1, h2, h3⟩ := build_tx_frame_shape tx_id
      (ServerCommand.intoU8 ServerCommand.UploadInitiateSegmentedResponse)
      (some eid) (some (u32_to_le_bytes size)) (by simp [u32_to_le_bytes])
    exact ⟨h1, h2, rfl, fun i hi _ => h3 i (by simp only [SdoFrame.contentLen] at hi; simp [u32_to_le_bytes]; omega)⟩
  | SegmentedUploadRequest t =>
    obtain ⟨h1, h2, h3⟩ := build_tx_frame_shape tx_id
      (ClientCommand.intoU8 (ClientCommand.UploadSegmentRequest t)) none none
      (by simp)
    exact ⟨h1, h2, rfl, fun i hi _ => h3 i (by simpa [SdoFrame.contentLen] using hi)⟩
  | SegmentedUploadResponse t l p =>
    obtain ⟨hp, hb⟩ := hwf
    obtain ⟨h1, h2, h3⟩ := build_tx_frame_shape tx_id
      (ServerCommand.intoU8 (ServerCommand.UploadSegmentResponse t p.length l))
      none (some p) (by simp; omega)
    exact ⟨h1, h2, rfl, fun i hi _ => h3 i (by simp only [SdoFrame.contentLen] at hi; simp; omega)⟩
  | SegmentedDownloadInitiateRequest eid size =>
    obtain ⟨h1, h2, h3⟩ := build_tx_frame_shape tx_id
      (ClientCommand.intoU8 ClientCommand.InitiateSegmentedDownload)
      (some eid) (some (u32_to_le_bytes size)) (by simp [u32_to_le_bytes])
    exact ⟨h1, h2, rfl, fun i hi _ => h3 i (by simp only [SdoFrame.contentLen] at hi; simp [u32_to_le_bytes]; omega)⟩
  | SegmentedDownloadRequest t l p =>
    obtain ⟨hp, hb⟩ := hwf
    obtain ⟨h1, h2, h3⟩ := build_tx_frame_shape tx_id
      (ClientCommand.intoU8 (ClientCommand.DownloadSegmentRequest t p.length l))
      none (some p) (by simp; omega)
    exact ⟨h1, h2, rfl, fun i hi _ => h3 i (by simp only [SdoFrame.contentLen] at hi; simp; omega)⟩
  | SegmentedDownloadResponse t =>
    obtain ⟨h1, h2, h3⟩ := build_tx_frame_shape tx_id
      (ServerCommand.intoU8 (ServerCommand.DownloadSegmentResponse t)) none none
      (by simp)
    exact ⟨h1, h2, rfl, fun i hi _ => h3 i (by simpa [SdoFrame.contentLen] using hi)⟩
  | Abort eid code =>
    obtain ⟨h1, h2, h3⟩ := build_tx_frame_shape tx_id
      (ServerCommand.intoU8 ServerCommand.Abort) (some eid)
      (some code.to_le_bytes) (by simp [SdoAbortCode.to_le_bytes, u32_to_le_bytes])
    exact ⟨h1, h2, rfl, fun i hi _ => h3 i (by simp only [SdoFrame.contentLen] at hi; simp [SdoAbortCode.to_le_bytes, u32_to_le_bytes]; omega)⟩

/-- Witness for `encode_frame_shape`: a concrete expedited download request
encodes to an 8-byte standard frame with zero padding after the content. -/
theorem encode_frame_shape_witness :
    (encode_tx_frame (Id.standard 0x585)
      (SdoFrame.ExpeditedDownloadRequest ⟨0x2000, 0x20⟩ [5, 16])).id =
        Id.standard 0x585 ∧
    (encode_tx_frame (Id.standard 0x585)
      (SdoFrame.ExpeditedDownloadRequest ⟨0x2000, 0x20⟩ [5, 16])).data.length = 8 ∧
    (encode_tx_frame (Id.standard 0x585)
      (SdoFrame.ExpeditedDownloadRequest ⟨0x2000, 0x20⟩ [5, 16])).data.getD 7 0 = 0 := by
  obtain ⟨h1, h2, h3, h4⟩ := encode_frame_shape (Id.standard 0x585)
    (SdoFrame.ExpeditedDownloadRequest ⟨0x2000, 0x20⟩ [5, 16]) (by decide)
  exact ⟨h1, h2, h4 7 (by decide) (by decide)⟩

/-- Helper: the client upload-request command byte round-trips. -/
theorem ct_upload : ClientCommand.tryFrom
    (ClientCommand.intoU8 ClientCommand.InitiateUpload) =
    some ClientCommand.InitiateUpload := by decide

/-- Helper: the client initiate-segmented-download command byte
round-trips. -/
theorem ct_isd : ClientCommand.tryFrom
    (ClientCommand.intoU8 ClientCommand.InitiateSegmentedDownload) =
    some ClientCommand.InitiateSegmentedDownload := by decide

/-- Helper: the client expedited-download command byte round-trips for
lengths 1..=4. -/
theorem ct_exp (n : Nat) (h1 : 1 ≤ n) (h4 : n ≤ 4) :
    ClientCommand.tryFrom (ClientCommand.intoU8 (ClientCommand.ExpeditedDownload n)) =
    some (ClientCommand.ExpeditedDownload n) := by
  interval_cases n <;> decide

/-- Helper: the client download-segment command byte round-trips for
lengths 0..=7. -/
theorem ct_dsr (t l : Bool) (n : Nat) (h : n ≤ 7) :
    ClientCommand.tryFrom
      (ClientCommand.intoU8 (ClientCommand.DownloadSegmentRequest t n l)) =
    some (ClientCommand.DownloadSegmentRequest t n l) := by
  cases t <;> cases l <;> interval_cases n <;> decide

/-- Helper: the client upload-segment-request command byte round-trips. -/
theorem ct_usr (t : Bool) : ClientCommand.tryFrom
    (ClientCommand.intoU8 (ClientCommand.UploadSegmentRequest t)) =
    some (ClientCommand.UploadSegmentRequest t) := by
  cases t <;> decide

/-- Helper: the server initiate-download-response command byte
round-trips. -/
theorem st_idr : ServerCommand.tryFrom
    (ServerCommand.intoU8 ServerCommand.InitiateDownloadResponse) =
    some ServerCommand.InitiateDownloadResponse := by decide

/-- Helper: the server download-segment-response command byte
round-trips. -/
theorem st_dsresp (t : Bool) : ServerCommand.tryFrom
    (ServerCommand.intoU8 (ServerCommand.DownloadSegmentResponse t)) =
    some (ServerCommand.DownloadSegmentResponse t) := by
  cases t <;> decide

/-- Helper: the server expedited-upload-response command byte round-trips
for lengths 1..=4. -/
theorem st_uier (n : Nat) (h1 : 1 ≤ n) (h4 : n ≤ 4) :
    ServerCommand.tryFrom
      (ServerCommand.intoU8 (ServerCommand.UploadInitiateExpeditedResponse n)) =
    some (ServerCommand.UploadInitiateExpeditedResponse n) := by
  interval_cases n <;> decide

/-- Helper: the server segmented-upload-initiate-response command byte
round-trips. -/
theorem st_uisr : ServerCommand.tryFrom
    (ServerCommand.intoU8 ServerCommand.UploadInitiateSegmentedResponse) =
    some ServerCommand.UploadInitiateSegmentedResponse := by decide

/-- Helper: the server upload-segment-response command byte round-trips for
lengths 0..=7. -/
theorem st_usresp (t l : Bool) (n : Nat) (h : n ≤ 7) :
    ServerCommand.tryFrom
      (ServerCommand.intoU8 (ServerCommand.UploadSegmentResponse t n l)) =
    some (ServerCommand.UploadSegmentResponse t n l) := by
  cases t <;> cases l <;> interval_cases n <;> decide

/-- Helper: the abort command byte decodes as abort under both command
sets. -/
theorem st_abort : ServerCommand.tryFrom (ServerCommand.intoU8 ServerCommand.Abort) =
    some ServerCommand.Abort ∧
    ClientCommand.tryFrom (ServerCommand.intoU8 ServerCommand.Abort) =
    some ClientCommand.Abort := by decide

/-- Helper: slicing bytes 1..1+n out of an 8-byte buffer takes the first n
bytes after the command byte. -/
theorem sliceE_tail (c : Nat) (rest : List Nat) (n : Nat)
    (h : n ≤ rest.length) :
    sliceE (c :: rest) 1 (1 + n) = Except.ok (rest.take n) := by
  rw [sliceE_ok _ _ _ (by omega) (by simp; omega)]
  simp

/-- Helper: slicing bytes 4..4+n out of an 8-byte buffer takes the first n
bytes after the command and EntryId bytes. -/
theorem sliceE_tail4 (c a b e : Nat) (rest : List Nat) (n : Nat)
    (h : n ≤ rest.length) :
    sliceE (c :: a :: b :: e :: rest) 4 (4 + n) = Except.ok (rest.take n) := by
  rw [sliceE_ok _ _ _ (by omega) (by simp; omega)]
  simp

/-- Helper: slicing bytes 1..4 extracts the three EntryId bytes. -/
theorem sliceE_idbytes (c a b e : Nat) (rest : List Nat) :
    sliceE (c :: a :: b :: e :: rest) 1 4 = Except.ok [a, b, e] := by
  rw [sliceE_ok _ _ _ (by omega) (by simp)]
  rfl

/-- Helper: a vector build from a list within capacity succeeds. -/
theorem vecFromSliceE_ok (cap : Nat) (l : List Nat) (h : l.length ≤ cap) :
    vecFromSliceE cap l = Except.ok l := by
  unfold vecFromSliceE
  rw [if_pos h]

/-- Helper: the spec-modelled EntryId byte encoding round-trips for in-range
identifiers. -/
theorem entry_id_roundtrip (e : EntryId) (h : e.WF) :
    EntryId.from_bytes [e.index % 256, e.index / 256 % 256, e.sub_index] = e := by
  obtain ⟨h1, h2⟩ := h
  obtain ⟨i, s⟩ := e
  simp only [EntryId.from_bytes, List.getD_cons_zero, List.getD_cons_succ]
  simp only at h1 h2
  congr 1
  omega

/-- Helper: the u32 little-endian byte encoding round-trips for in-range
values. -/
theorem u32_le_roundtrip (v : Nat) (h : v < 4294967296) :
    u32_from_le_bytes (u32_to_le_bytes v) = v := by
  simp only [u32_to_le_bytes, u32_from_le_bytes, List.getD_cons_zero,
    List.getD_cons_succ]
  omega

/-- Helper: an addressed 8-byte frame reaches the per-role decoder. -/
theorem try_decode_eq_roles (nid : NodeId) (role : SDORole)
    (f : EncodedCANOpenFrame) (hid : f.id = Id.standard (nid.raw + RX_ID_OFFSET))
    (h : f.data.length = 8) :
    try_decode_rx_frame nid role f =
      match role with
      | SDORole.Server => try_decode_rx_frame_from_client f.data
      | SDORole.Client => try_decode_rx_frame_from_server f.data := by
  obtain ⟨fid, d⟩ := f
  simp only at hid h
  subst hid
  unfold try_decode_rx_frame
  simp only [EncodedCANOpenFrame.dlc]
  rw [if_neg (by simp), if_neg (by omega)]

/-- Helper: length of the u32 little-endian encoding. -/
theorem u32_to_le_bytes_length (v : Nat) : (u32_to_le_bytes v).length = 4 := rfl

/-- Helper: taking 4 bytes of the u32 encoding is the identity. -/
theorem u32_take4 (v : Nat) : (u32_to_le_bytes v).take 4 = u32_to_le_bytes v := rfl

/-- Helper: length of the abort-code encoding. -/
theorem abort_to_le_bytes_length (c : SdoAbortCode) :
    c.to_le_bytes.length = 4 := rfl

/-- Helper: taking 4 bytes of the abort-code encoding is the identity. -/
theorem abort_take4 (c : SdoAbortCode) : c.to_le_bytes.take 4 = c.to_le_bytes :=
  rfl

/-- Helper: each abort code decodes back from its own encoding. -/
theorem from_to_abort (c : SdoAbortCode) :
    SdoAbortCode.from_le_bytes c.to_le_bytes = some c := by
  cases c <;> decide

/-- Helper: slicing bytes 4..8 out of an 8-byte buffer takes the 4 bytes
after the command and EntryId bytes. -/
theorem sliceE_word (c a b e : Nat) (rest : List Nat) (h : 4 ≤ rest.length) :
    sliceE (c :: a :: b :: e :: rest) 4 8 = Except.ok (rest.take 4) := by
  rw [sliceE_ok _ _ _ (by omega) (by simp; omega)]
  rfl

/-- C1 counterexample: a zero-length expedited payload does not round-trip:
the 2-bit complement length field stores 4 - 0 = 4, which overflows into
bit 4 of the command byte, and the frame decodes back with a 4-byte zero
payload. -/
theorem sdo_roundtrip_counterexample :
    try_decode_rx_frame ⟨5⟩
      (SdoFrame.ExpeditedDownloadRequest ⟨0x2000, 1⟩ []).receiverRole
      (encode_tx_frame (Id.standard (5 + RX_ID_OFFSET))
        (SdoFrame.ExpeditedDownloadRequest ⟨0x2000, 1⟩ [])) =
      Except.ok (some (SdoFrame.ExpeditedDownloadRequest ⟨0x2000, 1⟩
        [0, 0, 0, 0])) ∧
    try_decode_rx_frame ⟨5⟩
      (SdoFrame.ExpeditedDownloadRequest ⟨0x2000, 1⟩ []).receiverRole
      (encode_tx_frame (Id.standard (5 + RX_ID_OFFSET))
        (SdoFrame.ExpeditedDownloadRequest ⟨0x2000, 1⟩ [])) ≠
      Except.ok (some (SdoFrame.ExpeditedDownloadRequest ⟨0x2000, 1⟩ [])) := by
  constructor <;> decide

/-- C1 (amended): for every well-formed SdoFrame v whose expedited payload
(if any) is nonempty, and every node address in [0,127], encoding v with
the standard identifier node + 0x600 and decoding at that node under the
role that receives v's message kind yields exactly v.  (A zero-length
expedited payload is the one excluded case; see the counterexample.) -/
theorem sdo_roundtrip (nid : NodeId) (_hn : nid.raw ≤ 127) (v : SdoFrame)
    (hwf : v.WF) (hne : v.expeditedNonempty) :
    try_decode_rx_frame nid v.receiverRole
      (encode_tx_frame (Id.standard (nid.raw + RX_ID_OFFSET)) v) =
      Except.ok (some v) := by
  cases v with
  | UploadRequest eid =>
    have h8 : (encode_tx_frame (Id.standard (nid.raw + RX_ID_OFFSET))
        (SdoFrame.UploadRequest eid)).data.length = 8 := by
      simp only [encode_tx_frame, build_tx_sdo_frame,
        EncodedCANOpenFrame.from_vec_data]
      simp [EntryId.to_le_bytes]
    simp only [SdoFrame.receiverRole]
    rw [try_decode_eq_roles nid SDORole.Server _ rfl h8]
    simp only [encode_tx_frame, build_tx_sdo_frame,
      EncodedCANOpenFrame.from_vec_data, EntryId.to_le_bytes]
    simp only [List.nil_append, List.append_nil, List.cons_append,
      List.singleton_append, List.length_cons, List.length_append,
      List.length_nil, List.append_assoc]
    unfold try_decode_rx_frame_from_client
    rw [List.getD_cons_zero, ct_upload]
    simp only []
    rw [sliceE_idbytes, except_bind_ok, entry_id_roundtrip eid hwf]
  | ExpeditedDownloadRequest eid p =>
    obtain ⟨hid, hp, hb⟩ := hwf
    have h1 : 1 ≤ p.length := by
      have := List.length_pos.mpr hne
      omega
    have h8 : (encode_tx_frame (Id.standard (nid.raw + RX_ID_OFFSET))
        (SdoFrame.ExpeditedDownloadRequest eid p)).data.length = 8 := by
      simp only [encode_tx_frame, build_tx_sdo_frame,
        EncodedCANOpenFrame.from_vec_data]
      simp [EntryId.to_le_bytes]
      omega
    simp only [SdoFrame.receiverRole]
    rw [try_decode_eq_roles nid SDORole.Server _ rfl h8]
    simp only [encode_tx_frame, build_tx_sdo_frame,
      EncodedCANOpenFrame.from_vec_data, EntryId.to_le_bytes]
    simp only [List.nil_append, List.append_nil, List.cons_append,
      List.singleton_append, List.length_cons, List.length_append,
      List.length_nil, List.append_assoc]
    unfold try_decode_rx_frame_from_client
    rw [List.getD_cons_zero, ct_exp p.length h1 hp]
    simp only []
    rw [sliceE_idbytes, except_bind_ok,
      sliceE_tail4 _ _ _ _ _ _ (by simp), List.take_left, except_bind_ok,
      vecFromSliceE_ok 4 p hp, except_bind_ok, entry_id_roundtrip eid hid]
  | DownloadInitiateResponse eid =>
    have h8 : (encode_tx_frame (Id.standard (nid.raw + RX_ID_OFFSET))
        (SdoFrame.DownloadInitiateResponse eid)).data.length = 8 := by
      simp only [encode_tx_frame, build_tx_sdo_frame,
        EncodedCANOpenFrame.from_vec_data]
      simp [EntryId.to_le_bytes]
    simp only [SdoFrame.receiverRole]
    rw [try_decode_eq_roles nid SDORole.Client _ rfl h8]
    simp only [encode_tx_frame, build_tx_sdo_frame,
      EncodedCANOpenFrame.from_vec_data, EntryId.to_le_bytes]
    simp only [List.nil_append, List.append_nil, List.cons_append,
      List.singleton_append, List.length_cons, List.length_append,
      List.length_nil, List.append_assoc]
    unfold try_decode_rx_frame_from_server
    rw [List.getD_cons_zero, st_idr]
    simp only []
    rw [sliceE_idbytes, except_bind_ok, entry_id_roundtrip eid hwf]
  | ExpeditedUploadResponse eid p =>
    obtain ⟨hid, hp, hb⟩ := hwf
    have h1 : 1 ≤ p.length := by
      have := List.length_pos.mpr hne
      omega
    have h8 : (encode_tx_frame (Id.standard (nid.raw + RX_ID_OFFSET))
        (SdoFrame.ExpeditedUploadResponse eid p)).data.length = 8 := by
      simp only [encode_tx_frame, build_tx_sdo_frame,
        EncodedCANOpenFrame.from_vec_data]
      simp [EntryId.to_le_bytes]
      omega
    simp only [SdoFrame.receiverRole]
    rw [try_decode_eq_roles nid SDORole.Client _ rfl h8]
    simp only [encode_tx_frame, build_tx_sdo_frame,
      EncodedCANOpenFrame.from_vec_data, EntryId.to_le_bytes]
    simp only [List.nil_append, List.append_nil, List.cons_append,
      List.singleton_append, List.length_cons, List.length_append,
      List.length_nil, List.append_assoc]
    unfold try_decode_rx_frame_from_server
    rw [List.getD_cons_zero, st_uier p.length h1 hp]
    simp only []
    rw [sliceE_idbytes, except_bind_ok,
      sliceE_tail4 _ _ _ _ _ _ (by simp), List.take_left, except_bind_ok,
      vecFromSliceE_ok 4 p hp, except_bind_ok, entry_id_roundtrip eid hid]
  | SegmentedUploadInitiateResponse eid size =>
    obtain ⟨hid, hsz⟩ := hwf
    have h8 : (encode_tx_frame (Id.standard (nid.raw + RX_ID_OFFSET))
        (SdoFrame.SegmentedUploadInitiateResponse eid size)).data.length = 8 := by
      simp only [encode_tx_frame, build_tx_sdo_frame,
        EncodedCANOpenFrame.from_vec_data]
      simp [EntryId.to_le_bytes, u32_to_le_bytes_length]
    simp only [SdoFrame.receiverRole]
    rw [try_decode_eq_roles nid SDORole.Client _ rfl h8]
    simp only [encode_tx_frame, build_tx_sdo_frame,
      EncodedCANOpenFrame.from_vec_data, EntryId.to_le_bytes]
    simp only [List.nil_append, List.append_nil, List.cons_append,
      List.singleton_append, List.length_cons, List.length_append,
      List.length_nil, List.append_assoc, u32_to_le_bytes_length]
    unfold try_decode_rx_frame_from_server
    rw [List.getD_cons_zero, st_uisr]
    simp only []
    rw [sliceE_idbytes, except_bind_ok,
      sliceE_word _ _ _ _ _ (by simp [u32_to_le_bytes_length]),
      List.take_left' (u32_to_le_bytes_length size),
      except_bind_ok, u32_le_roundtrip size hsz, entry_id_roundtrip eid hid]
  | SegmentedUploadRequest t =>
    have h8 : (encode_tx_frame (Id.standard (nid.raw + RX_ID_OFFSET))
        (SdoFrame.SegmentedUploadRequest t)).data.length = 8 := by
      simp only [encode_tx_frame, build_tx_sdo_frame,
        EncodedCANOpenFrame.from_vec_data]
      simp
    simp only [SdoFrame.receiverRole]
    rw [try_decode_eq_roles nid SDORole.Server _ rfl h8]
    simp only [encode_tx_frame, build_tx_sdo_frame,
      EncodedCANOpenFrame.from_vec_data]
    simp only [List.nil_append, List.append_nil, List.cons_append,
      List.singleton_append, List.length_cons, List.length_append,
      List.length_nil, List.append_assoc]
    unfold try_decode_rx_frame_from_client
    rw [List.getD_cons_zero, ct_usr t]
  | SegmentedUploadResponse t l p =>
    obtain ⟨hp, hb⟩ := hwf
    have h8 : (encode_tx_frame (Id.standard (nid.raw + RX_ID_OFFSET))
        (SdoFrame.SegmentedUploadResponse t l p)).data.length = 8 := by
      simp only [encode_tx_frame, build_tx_sdo_frame,
        EncodedCANOpenFrame.from_vec_data]
      simp
      omega
    simp only [SdoFrame.receiverRole]
    rw [try_decode_eq_roles nid SDORole.Client _ rfl h8]
    simp only [encode_tx_frame, build_tx_sdo_frame,
      EncodedCANOpenFrame.from_vec_data]
    simp only [List.nil_append, List.append_nil, List.cons_append,
      List.singleton_append, List.length_cons, List.length_append,
      List.length_nil, List.append_assoc]
    unfold try_decode_rx_frame_from_server
    rw [List.getD_cons_zero, st_usresp t l p.length hp]
    simp only []
    rw [sliceE_tail _ _ _ (by simp), List.take_left, except_bind_ok,
      vecFromSliceE_ok 7 p hp, except_bind_ok]
  | SegmentedDownloadInitiateRequest eid size =>
    obtain ⟨hid, hsz⟩ := hwf
    have h8 : (encode_tx_frame (Id.standard (nid.raw + RX_ID_OFFSET))
        (SdoFrame.SegmentedDownloadInitiateRequest eid size)).data.length = 8 := by
      simp only [encode_tx_frame, build_tx_sdo_frame,
        EncodedCANOpenFrame.from_vec_data]
      simp [EntryId.to_le_bytes, u32_to_le_bytes_length]
    simp only [SdoFrame.receiverRole]
    rw [try_decode_eq_roles nid SDORole.Server _ rfl h8]
    simp only [encode_tx_frame, build_tx_sdo_frame,
      EncodedCANOpenFrame.from_vec_data, EntryId.to_le_bytes]
    simp only [List.nil_append, List.append_nil, List.cons_append,
      List.singleton_append, List.length_cons, List.length_append,
      List.length_nil, List.append_assoc, u32_to_le_bytes_length]
    unfold try_decode_rx_frame_from_client
    rw [List.getD_cons_zero, ct_isd]
    simp only []
    rw [sliceE_idbytes, except_bind_ok,
      sliceE_word _ _ _ _ _ (by simp [u32_to_le_bytes_length]),
      List.take_left' (u32_to_le_bytes_length size),
      except_bind_ok, u32_le_roundtrip size hsz, entry_id_roundtrip eid hid]
  | SegmentedDownloadRequest t l p =>
    obtain ⟨hp, hb⟩ := hwf
    have h8 : (encode_tx_frame (Id.standard (nid.raw + RX_ID_OFFSET))
        (SdoFrame.SegmentedDownloadRequest t l p)).data.length = 8 := by
      simp only [encode_tx_frame, build_tx_sdo_frame,
        EncodedCANOpenFrame.from_vec_data]
      simp
      omega
    simp only [SdoFrame.receiverRole]
    rw [try_decode_eq_roles nid SDORole.Server _ rfl h8]
    simp only [encode_tx_frame, build_tx_sdo_frame,
      EncodedCANOpenFrame.from_vec_data]
    simp only [List.nil_append, List.append_nil, List.cons_append,
      List.singleton_append, List.length_cons, List.length_append,
      List.length_nil, List.append_assoc]
    unfold try_decode_rx_frame_from_client
    rw [List.getD_cons_zero, ct_dsr t l p.length hp]
    simp only []
    rw [sliceE_tail _ _ _ (by simp), List.take_left, except_bind_ok,
      vecFromSliceE_ok 7 p hp, except_bind_ok]
  | SegmentedDownloadResponse t =>
    have h8 : (encode_tx_frame (Id.standard (nid.raw + RX_ID_OFFSET))
        (SdoFrame.SegmentedDownloadResponse t)).data.length = 8 := by
      simp only [encode_tx_frame, build_tx_sdo_frame,
        EncodedCANOpenFrame.from_vec_data]
      simp
    simp only [SdoFrame.receiverRole]
    rw [try_decode_eq_roles nid SDORole.Client _ rfl h8]
    simp only [encode_tx_frame, build_tx_sdo_frame,
      EncodedCANOpenFrame.from_vec_data]
    simp only [List.nil_append, List.append_nil, List.cons_append,
      List.singleton_append, List.length_cons, List.length_append,
      List.length_nil, List.append_assoc]
    unfold try_decode_rx_frame_from_server
    rw [List.getD_cons_zero, st_dsresp t]
  | Abort eid code =>
    have h8 : (encode_tx_frame (Id.standard (nid.raw + RX_ID_OFFSET))
        (SdoFrame.Abort eid code)).data.length = 8 := by
      simp only [encode_tx_frame, build_tx_sdo_frame,
        EncodedCANOpenFrame.from_vec_data]
      simp [EntryId.to_le_bytes, abort_to_le_bytes_length]
    simp only [SdoFrame.receiverRole]
    rw [try_decode_eq_roles nid SDORole.Client _ rfl h8]
    simp only [encode_tx_frame, build_tx_sdo_frame,
      EncodedCANOpenFrame.from_vec_data, EntryId.to_le_bytes]
    simp only [List.nil_append, List.append_nil, List.cons_append,
      List.singleton_append, List.length_cons, List.length_append,
      List.length_nil, List.append_assoc, abort_to_le_bytes_length]
    unfold try_decode_rx_frame_from_server
    rw [List.getD_cons_zero, st_abort.1]
    simp only []
    rw [sliceE_word _ _ _ _ _ (by simp [abort_to_le_bytes_length]),
      List.take_left' (abort_to_le_bytes_length code),
      except_bind_ok, from_to_abort]
    simp only []
    rw [sliceE_idbytes, except_bind_ok, entry_id_roundtrip eid hwf]

/-- Witness for `sdo_roundtrip`: a concrete segmented download request with
a 3-byte payload round-trips at node 5. -/
theorem sdo_roundtrip_witness :
    try_decode_rx_frame ⟨5⟩
      (SdoFrame.SegmentedDownloadRequest true false [1, 2, 3]).receiverRole
      (encode_tx_frame (Id.standard (5 + RX_ID_OFFSET))
        (SdoFrame.SegmentedDownloadRequest true false [1, 2, 3])) =
      Except.ok (some (SdoFrame.SegmentedDownloadRequest true false [1, 2, 3])) :=
  sdo_roundtrip ⟨5⟩ (by decide) _ (by decide) (by decide)

/-- Helper: two buffers that agree pointwise on a window produce the same
slice of that window. -/
theorem take_drop_eq_of_agree (d1 d2 : List Nat) (lo k : Nat)
    (hlen : d1.length = d2.length) (hk : lo + k ≤ d1.length)
    (hag : ∀ i, i < lo + k → d1.getD i 0 = d2.getD i 0) :
    (d1.drop lo).take k = (d2.drop lo).take k := by
  apply List.ext_getElem
  · simp [hlen]
  · intro j hj1 hj2
    have hj : j < k := by
      simp [List.length_take, List.length_drop] at hj1
      omega
    have hb1 : lo + j < d1.length := by omega
    have hb2 : lo + j < d2.length := by omega
    rw [List.getElem_take, List.getElem_drop, List.getElem_take,
      List.getElem_drop]
    have := hag (lo + j) (by omega)
    rwa [List.getD_eq_getElem?_getD, List.getD_eq_getElem?_getD,
      List.getElem?_eq_getElem hb1, List.getElem?_eq_getElem hb2] at this

/-- C8: two 8-byte frames addressed to the same node that agree on byte 0
and on bytes 1 through the declared segment payload length decode to the
same SdoFrame for every segment-class message kind (download-segment
request/response, upload-segment request/response), regardless of their
trailing bytes. -/
theorem segment_decode_ignores_trailing (nid : NodeId) (role : SDORole)
    (d1 d2 : List Nat) (h1 : d1.length = 8) (h2 : d2.length = 8)
    (hclass : segment_class role (d1.getD 0 0))
    (hagree : ∀ i, i < 1 + segment_declared_len role (d1.getD 0 0) →
      d1.getD i 0 = d2.getD i 0) :
    try_decode_rx_frame nid role ⟨Id.standard (nid.raw + RX_ID_OFFSET), d1⟩ =
    try_decode_rx_frame nid role ⟨Id.standard (nid.raw + RX_ID_OFFSET), d2⟩ := by
  have hb0 : d1.getD 0 0 = d2.getD 0 0 := hagree 0 (by omega)
  rw [try_decode_eq_roles nid role _ rfl h1,
    try_decode_eq_roles nid role _ rfl h2]
  cases role with
  | Server =>
    simp only []
    simp only [segment_class] at hclass
    rcases hclass with h5 | h5
    · have e1 : ClientCommand.tryFrom (d1.getD 0 0) =
          some (ClientCommand.DownloadSegmentRequest
            ((d1.getD 0 0 >>> 4) &&& 1 == 1)
            (7 - ((d1.getD 0 0 >>> 1) &&& 7)) (d1.getD 0 0 &&& 1 == 1)) := by
        unfold ClientCommand.tryFrom
        rw [h5]
      simp only [segment_declared_len, if_pos h5] at hagree
      unfold try_decode_rx_frame_from_client
      rw [← hb0, e1]
      simp only []
      have hn : 7 - ((d1.getD 0 0 >>> 1) &&& 7) ≤ 7 := Nat.sub_le 7 _
      have hsl := take_drop_eq_of_agree d1 d2 1
        (7 - ((d1.getD 0 0 >>> 1) &&& 7)) (by omega) (by omega)
        (fun i hi => hagree i (by omega))
      rw [sliceE_ok _ _ _ (by omega) (by omega), sliceE_ok _ _ _ (by omega) (by omega)]
      have hred : 1 + (7 - ((d1.getD 0 0 >>> 1) &&& 7)) - 1 =
          7 - ((d1.getD 0 0 >>> 1) &&& 7) := by omega
      rw [hred, hsl]
    · have e1 : ClientCommand.tryFrom (d1.getD 0 0) =
          some (ClientCommand.UploadSegmentRequest
            ((d1.getD 0 0 >>> 4) &&& 1 == 1)) := by
        unfold ClientCommand.tryFrom
        rw [h5]
      unfold try_decode_rx_frame_from_client
      rw [← hb0, e1]
  | Client =>
    simp only []
    simp only [segment_class] at hclass
    rcases hclass with h5 | h5
    · have e1 : ServerCommand.tryFrom (d1.getD 0 0) =
          some (ServerCommand.UploadSegmentResponse
            ((d1.getD 0 0 >>> 4) &&& 1 == 1)
            (7 - ((d1.getD 0 0 >>> 1) &&& 7)) (d1.getD 0 0 &&& 1 == 1)) := by
        unfold ServerCommand.tryFrom
        rw [h5]
      simp only [segment_declared_len, if_pos h5] at hagree
      unfold try_decode_rx_frame_from_server
      rw [← hb0, e1]
      simp only []
      have hn : 7 - ((d1.getD 0 0 >>> 1) &&& 7) ≤ 7 := Nat.sub_le 7 _
      have hsl := take_drop_eq_of_agree d1 d2 1
        (7 - ((d1.getD 0 0 >>> 1) &&& 7)) (by omega) (by omega)
        (fun i hi => hagree i (by omega))
      rw [sliceE_ok _ _ _ (by omega) (by omega), sliceE_ok _ _ _ (by omega) (by omega)]
      have hred : 1 + (7 - ((d1.getD 0 0 >>> 1) &&& 7)) - 1 =
          7 - ((d1.getD 0 0 >>> 1) &&& 7) := by omega
      rw [hred, hsl]
    · have e1 : ServerCommand.tryFrom (d1.getD 0 0) =
          some (ServerCommand.DownloadSegmentResponse
            ((d1.getD 0 0 >>> 4) &&& 1 == 1)) := by
        unfold ServerCommand.tryFrom
        rw [h5]
      unfold try_decode_rx_frame_from_server
      rw [← hb0, e1]

/-- Witness for `segment_decode_ignores_trailing`: two download-segment
request frames with declared length 4 that differ only in their trailing
bytes decode identically. -/
theorem segment_decode_ignores_trailing_witness :
    try_decode_rx_frame ⟨5⟩ SDORole.Server
      ⟨Id.standard (5 + RX_ID_OFFSET), [0x17, 1, 2, 3, 4, 9, 9, 9]⟩ =
    try_decode_rx_frame ⟨5⟩ SDORole.Server
      ⟨Id.standard (5 + RX_ID_OFFSET), [0x17, 1, 2, 3, 4, 7, 7, 7]⟩ :=
  segment_decode_ignores_trailing ⟨5⟩ SDORole.Server _ _ (by decide) (by decide)
    (by decide) (by decide)

/-- Helper: the three-way comparison agrees with the strict order (lt
case). -/
theorem EntryId.cmp_eq_lt {a b : EntryId} :
    EntryId.cmp a b = Ordering.lt ↔ EntryId.lt a b := by
  unfold EntryId.cmp EntryId.lt
  rcases Nat.lt_trichotomy a.index b.index with h | h | h
  · rw [Nat.compare_eq_lt.mpr h]
    simp [h]
  · rw [Nat.compare_eq_eq.mpr h]
    simp [h, Nat.compare_eq_lt]
  · rw [Nat.compare_eq_gt.mpr h]
    simp only [reduceCtorEq, false_iff]
    omega

/-- Helper: the three-way comparison agrees with equality. -/
theorem EntryId.cmp_eq_eq {a b : EntryId} :
    EntryId.cmp a b = Ordering.eq ↔ a = b := by
  obtain ⟨ai, asx⟩ := a
  obtain ⟨bi, bsx⟩ := b
  unfold EntryId.cmp
  simp only [EntryId.mk.injEq]
  rcases Nat.lt_trichotomy ai bi with h | h | h
  · rw [Nat.compare_eq_lt.mpr h]
    simp only [reduceCtorEq, false_iff]
    omega
  · rw [Nat.compare_eq_eq.mpr h]
    simp [h, Nat.compare_eq_eq]
  · rw [Nat.compare_eq_gt.mpr h]
    simp only [reduceCtorEq, false_iff]
    omega

/-- Helper: the three-way comparison agrees with the strict order (gt
case). -/
theorem EntryId.cmp_eq_gt {a b : EntryId} :
    EntryId.cmp a b = Ordering.gt ↔ EntryId.lt b a := by
  unfold EntryId.cmp EntryId.lt
  rcases Nat.lt_trichotomy a.index b.index with h | h | h
  · rw [Nat.compare_eq_lt.mpr h]
    simp only [reduceCtorEq, false_iff]
    omega
  · rw [Nat.compare_eq_eq.mpr h]
    simp [h, Nat.compare_eq_gt]
  · rw [Nat.compare_eq_gt.mpr h]
    simp [h]

/-- Helper: the strict EntryId order is transitive. -/
theorem EntryId.lt_trans {a b c : EntryId} (h1 : EntryId.lt a b)
    (h2 : EntryId.lt b c) : EntryId.lt a c := by
  unfold EntryId.lt at *
  omega

/-- Helper: the strict EntryId order is asymmetric. -/
theorem EntryId.lt_asymm {a b : EntryId} (h1 : EntryId.lt a b) :
    ¬ EntryId.lt b a := by
  unfold EntryId.lt at *
  omega

/-- Helper: the strict EntryId order is irreflexive. -/
theorem EntryId.lt_irrefl (a : EntryId) : ¬ EntryId.lt a a := by
  unfold EntryId.lt
  omega

/-- Helper: EntryId trichotomy. -/
theorem EntryId.lt_tricho (a b : EntryId) :
    EntryId.lt a b ∨ a = b ∨ EntryId.lt b a := by
  obtain ⟨ai, asx⟩ := a
  obtain ⟨bi, bsx⟩ := b
  unfold EntryId.lt
  simp only [EntryId.mk.injEq]
  omega

/-- Helper: the reflexive EntryId order is transitive. -/
theorem EntryId.le_trans {a b c : EntryId} (h1 : EntryId.le a b)
    (h2 : EntryId.le b c) : EntryId.le a c := by
  rcases h1 with h1 | rfl
  · rcases h2 with h2 | rfl
    · exact Or.inl (EntryId.lt_trans h1 h2)
    · exact Or.inl h1
  · exact h2

instance {α : Type} :
    IsTotal (Variable α) (fun v w => EntryId.le v.id w.id) := by
  constructor
  intro a b
  rcases EntryId.lt_tricho a.id b.id with h | h | h
  · exact Or.inl (Or.inl h)
  · exact Or.inl (Or.inr h)
  · exact Or.inr (Or.inl h)

instance {α : Type} :
    IsTrans (Variable α) (fun v w => EntryId.le v.id w.id) := by
  constructor
  intro a b c h1 h2
  exact EntryId.le_trans h1 h2

/-- Helper: soundness of the embedded binary search: a returned index lies
in the searched window and carries the searched key. -/
theorem bs_sound {α : Type} (entries : List (Variable α)) (id : EntryId) :
    ∀ left right : Nat, right ≤ entries.length →
    ∀ i : Nat, binary_search_by_key entries id left right = some i →
    left ≤ i ∧ i < right ∧ ∃ v, entries.get? i = some v ∧ v.id = id := by
  intro left right
  induction left, right using binary_search_by_key.induct entries id with
  | case1 left right hlt mid hget =>
    intro hr i hbs
    rw [binary_search_by_key, if_pos hlt] at hbs
    simp only [hget] at hbs
    exact Option.noConfusion hbs
  | case2 left right hlt mid k hget hcmp ih =>
    intro hr i hbs
    rw [binary_search_by_key, if_pos hlt] at hbs
    simp only [hget, hcmp] at hbs
    obtain ⟨ha, hb, hc⟩ := ih hr i hbs
    exact ⟨by omega, hb, hc⟩
  | case3 left right hlt mid k hget hcmp ih =>
    intro hr i hbs
    rw [binary_search_by_key, if_pos hlt] at hbs
    simp only [hget, hcmp] at hbs
    obtain ⟨ha, hb, hc⟩ := ih (by omega) i hbs
    exact ⟨ha, by omega, hc⟩
  | case4 left right hlt mid k hget hcmp =>
    intro hr i hbs
    rw [binary_search_by_key, if_pos hlt] at hbs
    simp only [hget, hcmp, Option.some.injEq] at hbs
    subst hbs
    refine ⟨by omega, by omega, k, hget, ?_⟩
    exact EntryId.cmp_eq_eq.mp hcmp
  | case5 left right hlt =>
    intro hr i hbs
    rw [binary_search_by_key, if_neg hlt] at hbs
    exact Option.noConfusion hbs

/-- Helper: in a strictly key-sorted entry list, keys grow with the
index. -/
theorem sorted_key_lt {α : Type} {entries : List (Variable α)}
    (hs : List.Pairwise (fun v w => EntryId.lt v.id w.id) entries)
    {i j : Nat} (hij : i < j) (hj : j < entries.length)
    {v w : Variable α} (hvi : entries.get? i = some v)
    (hwj : entries.get? j = some w) : EntryId.lt v.id w.id := by
  have hi : i < entries.length := by omega
  rw [List.get?_eq_get hi] at hvi
  rw [List.get?_eq_get hj] at hwj
  injection hvi with hv2
  injection hwj with hw2
  subst hv2
  subst hw2
  exact List.pairwise_iff_get.mp hs ⟨i, hi⟩ ⟨j, hj⟩ (Fin.mk_lt_mk.mpr hij)

/-- Helper: completeness of the embedded binary search on a strictly
key-sorted list: if the key occurs in the searched window, the search finds
an index. -/
theorem bs_complete {α : Type} (entries : List (Variable α)) (id : EntryId)
    (hs : List.Pairwise (fun v w => EntryId.lt v.id w.id) entries) :
    ∀ left right : Nat, right ≤ entries.length →
    (∃ j, left ≤ j ∧ j < right ∧ ∃ v, entries.get? j = some v ∧ v.id = id) →
    ∃ i, binary_search_by_key entries id left right = some i := by
  intro left right
  induction left, right using binary_search_by_key.induct entries id with
  | case1 left right hlt mid hget =>
    intro hr hex
    exfalso
    have hmidval : mid = left + (right - left) / 2 := rfl
    have hnone : entries.length ≤ mid := List.get?_eq_none.mp hget
    omega
  | case2 left right hlt mid k hget hcmp ih =>
    intro hr hex
    have hmidval : mid = left + (right - left) / 2 := rfl
    obtain ⟨j, hj1, hj2, v, hv, hvid⟩ := hex
    have hklt : EntryId.lt k.id id := EntryId.cmp_eq_lt.mp hcmp
    have hjgt : mid + 1 ≤ j := by
      by_contra hle
      push_neg at hle
      rcases Nat.lt_or_ge j mid with hjm | hjm
      · have hlt2 := sorted_key_lt hs hjm (by omega) hv hget
        rw [hvid] at hlt2
        exact EntryId.lt_asymm hklt hlt2
      · have hjeq : j = mid := by omega
        subst hjeq
        rw [hv] at hget
        injection hget with he
        subst he
        rw [hvid] at hklt
        exact EntryId.lt_irrefl id hklt
    rw [binary_search_by_key, if_pos hlt]
    simp only [hget, hcmp]
    exact ih hr ⟨j, hjgt, hj2, v, hv, hvid⟩
  | case3 left right hlt mid k hget hcmp ih =>
    intro hr hex
    have hmidval : mid = left + (right - left) / 2 := rfl
    obtain ⟨j, hj1, hj2, v, hv, hvid⟩ := hex
    have hkgt : EntryId.lt id k.id := EntryId.cmp_eq_gt.mp hcmp
    have hjlt : j < mid := by
      by_contra hle
      push_neg at hle
      rcases Nat.lt_or_ge mid j with hjm | hjm
      · have hlt2 := sorted_key_lt hs hjm (by omega) hget hv
        rw [hvid] at hlt2
        exact EntryId.lt_asymm hkgt hlt2
      · have hjeq : j = mid := by omega
        subst hjeq
        rw [hv] at hget
        injection hget with he
        subst he
        rw [hvid] at hkgt
        exact EntryId.lt_irrefl id hkgt
    rw [binary_search_by_key, if_pos hlt]
    simp only [hget, hcmp]
    exact ih (by omega) ⟨j, hj1, hjlt, v, hv, hvid⟩
  | case4 left right hlt mid k hget hcmp =>
    intro hr hex
    refine ⟨mid, ?_⟩
    rw [binary_search_by_key, if_pos hlt]
    simp only [hget, hcmp]
  | case5 left right hlt =>
    intro hr hex
    obtain ⟨j, hj1, hj2, _⟩ := hex
    omega

/-- Helper: the constructed dictionary stores the insertion-sorted entry
list. -/
theorem od_new_entries {α β : Type} (er msr : Nat) (pe : List Nat)
    (tp rp : List β) (entries : List (Variable α)) :
    (ObjectDictionary.new er msr pe tp rp entries).entries =
      List.insertionSort (fun v w => EntryId.le v.id w.id) entries := rfl

/-- C6: for every entry list with pairwise-distinct EntryIds (plus device
registers and PDO tables), `ObjectDictionary::new` produces an entry
sequence in strictly ascending lexicographic (index, sub_index) order, and
afterwards `get_mut_variable` returns the entry carrying each id present in
the constructed set and no value for every id not present. -/
theorem od_construct_lookup {α β : Type} (er msr : Nat) (pe : List Nat)
    (tp rp : List β) (entries : List (Variable α))
    (hdist : List.Pairwise (fun v w => v.id ≠ w.id) entries) :
    List.Pairwise (fun v w => EntryId.lt v.id w.id)
      (ObjectDictionary.new er msr pe tp rp entries).entries ∧
    (∀ v ∈ entries,
      (ObjectDictionary.new er msr pe tp rp entries).get_mut_variable v.id =
        some v) ∧
    (∀ id : EntryId, (∀ v ∈ entries, v.id ≠ id) →
      (ObjectDictionary.new er msr pe tp rp entries).get_mut_variable id =
        none) := by
  have hsymm : Symmetric (fun v w : Variable α => v.id ≠ w.id) :=
    fun a b h => Ne.symm h
  have hperm : (List.insertionSort (fun v w => EntryId.le v.id w.id)
      entries).Perm entries := List.perm_insertionSort _ entries
  have hsle : List.Sorted (fun v w => EntryId.le v.id w.id)
      (List.insertionSort (fun v w => EntryId.le v.id w.id) entries) :=
    List.sorted_insertionSort _ entries
  have hdist2 : List.Pairwise (fun v w => v.id ≠ w.id)
      (List.insertionSort (fun v w => EntryId.le v.id w.id) entries) :=
    (hperm.pairwise_iff (fun {x y} h => Ne.symm h)).mpr hdist
  have hsortlt : List.Pairwise (fun v w => EntryId.lt v.id w.id)
      (List.insertionSort (fun v w => EntryId.le v.id w.id) entries) := by
    refine (hsle.and hdist2).imp ?_
    intro a b hab
    obtain ⟨hle, hne⟩ := hab
    rcases hle with h | h
    · exact h
    · exact absurd h hne
  refine ⟨hsortlt, ?_, ?_⟩
  · intro v hv
    have hvs : v ∈ List.insertionSort (fun v w => EntryId.le v.id w.id)
        entries := hperm.mem_iff.mpr hv
    obtain ⟨⟨j, hjl⟩, hgetj⟩ := List.mem_iff_get.mp hvs
    have hgq : (List.insertionSort (fun v w => EntryId.le v.id w.id)
        entries).get? j = some v := by
      rw [List.get?_eq_get hjl, hgetj]
    obtain ⟨i, hbs⟩ := bs_complete _ v.id hsortlt 0 _ le_rfl
      ⟨j, Nat.zero_le j, hjl, v, hgq, rfl⟩
    obtain ⟨_, hi2, w, hw, hwid⟩ := bs_sound _ v.id 0 _ le_rfl i hbs
    have hws : w ∈ List.insertionSort (fun v w => EntryId.le v.id w.id)
        entries := List.get?_mem hw
    have hwe : w ∈ entries := hperm.mem_iff.mp hws
    have hveq : w = v := by
      by_contra hne
      exact List.Pairwise.forall hsymm hdist hwe hv hne hwid
    unfold ObjectDictionary.get_mut_variable
    simp only [od_new_entries]
    rw [hbs]
    simp only []
    rw [hw, hveq]
  · intro id hnone
    unfold ObjectDictionary.get_mut_variable
    simp only [od_new_entries]
    cases hbs : binary_search_by_key
        (List.insertionSort (fun v w => EntryId.le v.id w.id) entries) id 0
        (List.insertionSort (fun v w => EntryId.le v.id w.id) entries).length
        with
    | none => rfl
    | some i =>
      obtain ⟨_, hi2, w, hw, hwid⟩ := bs_sound _ id 0 _ le_rfl i hbs
      have hws : w ∈ List.insertionSort (fun v w => EntryId.le v.id w.id)
          entries := List.get?_mem hw
      have hwe : w ∈ entries := hperm.mem_iff.mp hws
      exact absurd hwid (hnone w hwe)

/-- Witness for `od_construct_lookup`: a concrete three-entry dictionary
finds a present id and misses an absent one. -/
theorem od_construct_lookup_witness :
    (ObjectDictionary.new (β := Nat) 0 0 [] [] []
      [(⟨⟨2, 1⟩, 10⟩ : Variable Nat), ⟨⟨1, 5⟩, 20⟩, ⟨⟨1, 2⟩, 30⟩]).get_mut_variable
      ⟨1, 5⟩ = some ⟨⟨1, 5⟩, 20⟩ ∧
    (ObjectDictionary.new (β := Nat) 0 0 [] [] []
      [(⟨⟨2, 1⟩, 10⟩ : Variable Nat), ⟨⟨1, 5⟩, 20⟩, ⟨⟨1, 2⟩, 30⟩]).get_mut_variable
      ⟨1, 3⟩ = none :=
  ⟨(od_construct_lookup 0 0 [] [] [] _ (by decide)).2.1 ⟨⟨1, 5⟩, 20⟩ (by decide),
   (od_construct_lookup 0 0 [] [] [] _ (by decide)).2.2 ⟨1, 3⟩ (by decide)⟩

end CanOpen
